import Mathlib

/-!
# julesExp: the ledger of `main.go` and `fileops.go`

A shallow embedding of the personal ledger manager: the `Operation` and
`AccountData` records, the validation done by the "Sauvegarder" button of the
add-operation form, `sortOperations`, the delete-key handler of the list page,
the balance column of `populateTableData`, and `saveData` / `loadData` with the
"Charger" handler.

Go library routines the program calls (`strings.TrimSpace`, `time.Parse`,
`strconv.ParseFloat`, `sort.SliceStable`, `encoding/json`, `os.ReadFile`,
`os.WriteFile`, `os.IsNotExist`, `fmt.Errorf`) are not part of the repository.
The two text parsers and the JSON codec are passed to the handlers as
arguments, so that the general theorems hold for every behaviour of the
library; small executable models of the parsers are supplied for evaluating the
handlers on concrete form texts.
-/

namespace JulesExp

/-! ## Library values -/

/-- Values of Go's `float64` as this program observes them. A finite value is
kept as the exact rational number it denotes; the two infinities and NaN are
separate values, because `strconv.ParseFloat` produces them and comparisons
treat them specially. The arithmetic rounds its exact result to the nearest
value a `float64` can hold (`roundFloat64`), as IEEE 754 prescribes. The sign
of zero is not kept. -/
inductive Float64 where
  | finite (q : ℚ)
  | posInf
  | negInf
  | nan
deriving DecidableEq

/-- Number of binary digits of `n`, by repeated halving (`fuel` bounds the
number of steps). -/
def bitLengthAux : Nat → Nat → Nat
  | 0, _ => 0
  | fuel + 1, n => if n = 0 then 0 else bitLengthAux fuel (n / 2) + 1

/-- Number of binary digits of `n`. -/
def bitLength (n : Nat) : Nat := bitLengthAux n n

/-- For positive `n` and `d`, the exponent `e` with `2^e ≤ n/d < 2^(e+1)`. -/
def floorLog2 (n d : Nat) : Int :=
  let e0 : Int := (bitLength n : Int) - (bitLength d : Int)
  if 0 ≤ e0 then (if d * 2 ^ e0.toNat ≤ n then e0 else e0 - 1)
  else (if d ≤ n * 2 ^ (-e0).toNat then e0 else e0 - 1)

/-- The integer nearest to `n/d` (for `d > 0`), the even one of the two when
`n/d` lies halfway between them. -/
def roundHalfEven (n : Int) (d : Nat) : Int :=
  let f := n / (d : Int)
  let r2 := 2 * (n % (d : Int))
  if r2 < (d : Int) then f
  else if (d : Int) < r2 then f + 1
  else if f % 2 = 0 then f else f + 1

/-- The rational `m * 2^e`. -/
def scaleByPow2 (m : Int) (e : Int) : ℚ :=
  if 0 ≤ e then ((m * 2 ^ e.toNat : Int) : ℚ) else (m : ℚ) / ((2 ^ (-e).toNat : Nat) : ℚ)

/-- IEEE 754 rounding to nearest, ties to even, into binary64: the result has
a significand of at most 53 binary digits in units of `2^e`, where `e` is 52
below the binary exponent of `q` and at least -1074 (subnormal numbers); a
rounded magnitude of `2^1024` or more overflows to an infinity. -/
def roundFloat64 (q : ℚ) : Float64 :=
  if q = 0 then Float64.finite 0
  else
    let e : Int := max (floorLog2 q.num.natAbs q.den - 52) (-1074)
    let m : Int :=
      if 0 ≤ e then roundHalfEven q.num (q.den * 2 ^ e.toNat)
      else roundHalfEven (q.num * 2 ^ (-e).toNat) q.den
    if 2 ^ 2098 ≤ m * 2 ^ (e + 1074).toNat then Float64.posInf
    else if m * 2 ^ (e + 1074).toNat ≤ -(2 ^ 2098) then Float64.negInf
    else Float64.finite (scaleByPow2 m e)

namespace Float64

/-- A rational number that a `float64` holds exactly: rounding leaves it as
it is. -/
def representable (q : ℚ) : Prop := roundFloat64 q = finite q

instance (q : ℚ) : Decidable (representable q) :=
  inferInstanceAs (Decidable (roundFloat64 q = finite q))

/-- The zero value of a `float64` variable. -/
def zero : Float64 := finite 0

/-- Go's `x < y` on `float64`: false as soon as one side is NaN. -/
def lt : Float64 → Float64 → Bool
  | finite a, finite b => decide (a < b)
  | finite _, posInf => true
  | negInf, finite _ => true
  | negInf, posInf => true
  | _, _ => false

/-- Go's `x <= y` on `float64`: false as soon as one side is NaN. -/
def le : Float64 → Float64 → Bool
  | finite a, finite b => decide (a ≤ b)
  | finite _, posInf => true
  | negInf, finite _ => true
  | negInf, negInf => true
  | negInf, posInf => true
  | posInf, posInf => true
  | _, _ => false

/-- Go's `x + y` on `float64`: the exact sum of two finite values, rounded. -/
def add : Float64 → Float64 → Float64
  | finite a, finite b => roundFloat64 (a + b)
  | nan, _ => nan
  | _, nan => nan
  | posInf, negInf => nan
  | negInf, posInf => nan
  | posInf, _ => posInf
  | _, posInf => posInf
  | negInf, _ => negInf
  | _, negInf => negInf

/-- Go's unary minus on `float64`. -/
def neg : Float64 → Float64
  | finite a => finite (-a)
  | posInf => negInf
  | negInf => posInf
  | nan => nan

/-- Go's `x - y` on `float64`: the exact difference of two finite values,
rounded. -/
def sub (x y : Float64) : Float64 := add x (neg y)

end Float64

/-- Go's `time.Time` as this program observes it: the instant, counted in
nanoseconds from the Unix epoch. `Before` compares instants only. -/
structure Time where
  unixNano : Int
deriving DecidableEq

/-- Go's `t.Before(u)`. -/
def Time.Before (t u : Time) : Bool := decide (t.unixNano < u.unixNano)

/-! ## Data model (`main.go`, lines 36-50) -/

/-- Operation struct defines the structure for an operation. -/
structure Operation where
  Date : Time
  Description : String
  Debit : Float64
  Credit : Float64
deriving DecidableEq

/-- AccountData struct defines the structure for account data. -/
structure AccountData where
  Operations : List Operation
  LastSaveDate : String
deriving DecidableEq

/-- The layout string handed to `time.Parse`. -/
def dateLayout : String := "02/01/06"

/-- The ledger `main` starts with: no operation, empty last-save date. -/
def initialAccountData : AccountData := { Operations := [], LastSaveDate := "" }

/-! ## `strings.TrimSpace` -/

/-- Go's `unicode.IsSpace`: the code points with the White_Space property. -/
def isSpace (c : Char) : Bool :=
  let n := c.toNat
  (9 ≤ n && n ≤ 13) || n == 0x20 || n == 0x85 || n == 0xA0 || n == 0x1680 ||
  (0x2000 ≤ n && n ≤ 0x200A) || n == 0x2028 || n == 0x2029 || n == 0x202F ||
  n == 0x205F || n == 0x3000

/-- Removes the leading run of white space. -/
def trimLeft : List Char → List Char
  | [] => []
  | c :: cs => if isSpace c then trimLeft cs else c :: cs

/-- Go's `strings.TrimSpace`: leading and trailing white space removed. -/
def TrimSpace (s : String) : String :=
  String.mk (trimLeft (trimLeft s.data).reverse).reverse

/-! ## The modal dialogs -/

/-- What `showModal` is called with: the page-name suffix, the title, the
message and the button labels. -/
structure Modal where
  pageNameSuffix : String
  title : String
  message : String
  buttons : List String
deriving DecidableEq

instance {ε α : Type} [DecidableEq ε] [DecidableEq α] : DecidableEq (Except ε α)
  | Except.error a, Except.error b =>
    if h : a = b then isTrue (by rw [h]) else isFalse (fun hc => h (Except.error.inj hc))
  | Except.ok a, Except.ok b =>
    if h : a = b then isTrue (by rw [h]) else isFalse (fun hc => h (Except.ok.inj hc))
  | Except.error _, Except.ok _ => isFalse (fun hc => Except.noConfusion hc)
  | Except.ok _, Except.error _ => isFalse (fun hc => Except.noConfusion hc)

/-- The two text parsers of the Go library used by the add-operation form:
`time.Parse(dateLayout, ·)` and `strconv.ParseFloat(·, 64)`. `none` stands for
a non-nil error. -/
structure Parsers where
  timeParse : String → Option Time
  parseFloat : String → Option Float64

/-! ## Executable models of the two parsers -/

/-- The value of a decimal digit. -/
def digitVal (c : Char) : Option Nat :=
  if c.isDigit then some (c.toNat - 48) else none

/-- Leap years of the Gregorian calendar. -/
def isLeap (y : Nat) : Bool := y % 4 == 0 && (y % 100 != 0 || y % 400 == 0)

/-- Number of days of month `m` in year `y`. -/
def daysIn (m y : Nat) : Nat :=
  if m == 2 then (if isLeap y then 29 else 28)
  else if m == 4 || m == 6 || m == 9 || m == 11 then 30 else 31

/-- Days from 1970-01-01 to the civil date `y`-`m`-`d`. -/
def daysFromCivil (y m d : Nat) : Int :=
  let y1 : Int := if m ≤ 2 then (y : Int) - 1 else y
  let era : Int := y1 / 400
  let yoe : Int := y1 - era * 400
  let mp : Int := if m ≤ 2 then (m : Int) + 9 else (m : Int) - 3
  let doy : Int := (153 * mp + 2) / 5 + (d : Int) - 1
  let doe : Int := yoe * 365 + yoe / 4 - yoe / 100 + doy
  era * 146097 + doe - 719468

/-- Model of `time.Parse("02/01/06", s)` on texts of the shape `DD/MM/YY` made
of decimal digits: the day and the month are range-checked, a two-digit year
from 69 on is in the 1900s and below 69 in the 2000s, and the result is
midnight UTC of that day. Every other text is reported as a parse error. -/
def goTimeParse (s : String) : Option Time :=
  match s.data with
  | [d1, d2, '/', m1, m2, '/', y1, y2] =>
    match digitVal d1, digitVal d2, digitVal m1, digitVal m2, digitVal y1, digitVal y2 with
    | some a, some b, some c, some d, some e, some f =>
      let day := 10 * a + b
      let month := 10 * c + d
      let yy := 10 * e + f
      let year := if 69 ≤ yy then 1900 + yy else 2000 + yy
      if month < 1 || 12 < month then none
      else if day < 1 || daysIn month year < day then none
      else some { unixNano := daysFromCivil year month day * 86400 * 1000000000 }
    | _, _, _, _, _, _ => none
  | _ => none

/-- Reads a run of decimal digits: the number read, how many digits it has,
and the text that follows. -/
def readDigits : List Char → Nat → Nat → Nat × Nat × List Char
  | [], acc, n => (acc, n, [])
  | c :: cs, acc, n =>
    if c.isDigit then readDigits cs (10 * acc + (c.toNat - 48)) (n + 1) else (acc, n, c :: cs)

/-- An unsigned decimal text `digits[.digits]` with at least one digit. -/
def parseDecimal (cs : List Char) : Option ℚ :=
  match readDigits cs 0 0 with
  | (ip, ni, []) => if ni = 0 then none else some (ip : ℚ)
  | (ip, ni, '.' :: fs) =>
    match readDigits fs 0 0 with
    | (fp, nf, []) => if ni + nf = 0 then none else some ((ip : ℚ) + (fp : ℚ) / 10 ^ nf)
    | _ => none
  | _ => none

/-- Model of `strconv.ParseFloat(s, 64)` on plain decimal texts and on the
special values: an optional sign followed by `digits[.digits]`, whose value
is rounded to the nearest `float64` and is an error when it is out of range;
the texts `inf` and `infinity` with an optional sign, and the unsigned text
`nan`, the last three in any letter case. Exponents, hexadecimal texts and
underscores are outside this model and reported as errors. -/
def goParseFloat (s : String) : Option Float64 :=
  let lower := s.data.map Char.toLower
  if lower = "nan".data then some Float64.nan
  else
    let (negative, body) :=
      match s.data with
      | '-' :: cs => (true, cs)
      | '+' :: cs => (false, cs)
      | cs => (false, cs)
    let lowerBody := body.map Char.toLower
    if lowerBody = "inf".data || lowerBody = "infinity".data then
      some (if negative then Float64.negInf else Float64.posInf)
    else
      match parseDecimal body with
      | some q =>
        match roundFloat64 (if negative then -q else q) with
        | Float64.finite r => some (Float64.finite r)
        | _ => none
      | none => none

/-- The library parsers as modelled above. -/
def goParsers : Parsers := { timeParse := goTimeParse, parseFloat := goParseFloat }

/-! ## `sortOperations` (`main.go`, lines 52-57) -/

/-- One insertion step of a stable sort: `x` goes in front of the first entry
it is strictly less than, hence behind every entry it is not less than. -/
def insertStable {α : Type} (less : α → α → Bool) (x : α) : List α → List α
  | [] => [x]
  | y :: ys => if less x y then x :: y :: ys else y :: insertStable less x ys

/-- Model of `sort.SliceStable(slice, less)`: the entries are taken from left
to right and each one is inserted into the sorted part built so far, after
the entries it is not less than (the insertion sort that the library runs on
short slices; on longer ones it merges such runs, still stably). -/
def SliceStable {α : Type} (less : α → α → Bool) (xs : List α) : List α :=
  xs.foldl (fun acc x => insertStable less x acc) []

/-- sortOperations sorts a slice of Operation structs by date. -/
def sortOperations (ops : List Operation) : List Operation :=
  SliceStable (fun a b => a.Date.Before b.Date) ops

/-! ## The "Sauvegarder" button of the add-operation form (`main.go`, lines 108-170) -/

/-- Modal shown when the description is empty. -/
def descErr : Modal :=
  { pageNameSuffix := "descErr", title := "Erreur de validation",
    message := "La description ne peut pas être vide.", buttons := ["OK"] }

/-- Modal shown when the date does not parse. -/
def dateErr : Modal :=
  { pageNameSuffix := "dateErr", title := "Erreur de validation",
    message := "Format de date invalide. Utilisez JJ/MM/AA.", buttons := ["OK"] }

/-- Modal shown when the debit text is rejected. -/
def debitErr : Modal :=
  { pageNameSuffix := "debitErr", title := "Erreur de validation",
    message := "Valeur de débit invalide ou négative.", buttons := ["OK"] }

/-- Modal shown when the credit text is rejected. -/
def creditErr : Modal :=
  { pageNameSuffix := "creditErr", title := "Erreur de validation",
    message := "Valeur de crédit invalide ou négative.", buttons := ["OK"] }

/-- Modal shown when both amounts are filled in. -/
def debitCreditComboErr : Modal :=
  { pageNameSuffix := "debitCreditComboErr", title := "Erreur de validation",
    message := "Veuillez entrer un débit OU un crédit, pas les deux.", buttons := ["OK"] }

/-- Modal shown when no amount is filled in. -/
def debitCreditMissingErr : Modal :=
  { pageNameSuffix := "debitCreditMissingErr", title := "Erreur de validation",
    message := "Veuillez entrer un débit ou un crédit.", buttons := ["OK"] }

/-- Modal shown once the operation is stored. -/
def saveSuccess : Modal :=
  { pageNameSuffix := "saveSuccess", title := "Succès",
    message := "Opération sauvegardée !", buttons := ["OK"] }

/-- Lines 109-163 of the handler: the four texts are trimmed and checked one
after the other; the first failing check shows its modal and returns, and
when all pass the new `Operation` is built. -/
def validateOperation (lib : Parsers)
    (dateText descriptionText debitText creditText : String) : Except Modal Operation :=
  let dateStr := TrimSpace dateText
  let descriptionStr := TrimSpace descriptionText
  let debitStr := TrimSpace debitText
  let creditStr := TrimSpace creditText
  if descriptionStr = "" then Except.error descErr
  else
    match lib.timeParse dateStr with
    | none => Except.error dateErr
    | some parsedDate =>
      let debitRes : Option Float64 :=
        if debitStr ≠ "" then
          match lib.parseFloat debitStr with
          | none => none
          | some debitVal => if Float64.lt debitVal Float64.zero then none else some debitVal
        else some Float64.zero
      match debitRes with
      | none => Except.error debitErr
      | some debitVal =>
        let creditRes : Option Float64 :=
          if creditStr ≠ "" then
            match lib.parseFloat creditStr with
            | none => none
            | some creditVal => if Float64.lt creditVal Float64.zero then none else some creditVal
          else some Float64.zero
        match creditRes with
        | none => Except.error creditErr
        | some creditVal =>
          if debitStr ≠ "" ∧ creditStr ≠ "" then Except.error debitCreditComboErr
          else if debitStr = "" ∧ creditStr = "" then Except.error debitCreditMissingErr
          else
            Except.ok
              { Date := parsedDate, Description := descriptionStr,
                Debit := debitVal, Credit := creditVal }

/-- Lines 164-165: the new operation is appended and the slice re-sorted. -/
def insertOperation (ops : List Operation) (newOperation : Operation) : List Operation :=
  sortOperations (ops ++ [newOperation])

/-- The whole "Sauvegarder" handler: the ledger afterwards and the modal shown. -/
def addOperationSauvegarder (lib : Parsers) (currentAccountData : AccountData)
    (dateText descriptionText debitText creditText : String) : AccountData × Modal :=
  match validateOperation lib dateText descriptionText debitText creditText with
  | Except.error modal => (currentAccountData, modal)
  | Except.ok newOperation =>
    ({ currentAccountData with
        Operations := insertOperation currentAccountData.Operations newOperation },
      saveSuccess)

/-! ## The validation rules as the specification words them -/

/-- The six rejection reasons of the specification. -/
inductive ValidationError where
  | EmptyDescription
  | InvalidDate
  | InvalidDebit
  | InvalidCredit
  | BothDebitAndCredit
  | NeitherDebitNorCredit
deriving DecidableEq

/-- The modal by which the program reports each rejection reason. -/
def ValidationError.modal : ValidationError → Modal
  | EmptyDescription => descErr
  | InvalidDate => dateErr
  | InvalidDebit => debitErr
  | InvalidCredit => creditErr
  | BothDebitAndCredit => debitCreditComboErr
  | NeitherDebitNorCredit => debitCreditMissingErr

/-- The specification's "parses as a non-negative decimal number": the text
parses and the number obtained is at least zero. -/
def isNonNegativeDecimal (lib : Parsers) (s : String) : Bool :=
  match lib.parseFloat s with
  | some v => Float64.le Float64.zero v
  | none => false

/-- The first failing rule of section 4.2, in the order the specification
lists them, on the trimmed form texts; `none` when no rule fails. -/
def firstFailingRule (lib : Parsers)
    (dateText descriptionText debitText creditText : String) : Option ValidationError :=
  if TrimSpace descriptionText = "" then some ValidationError.EmptyDescription
  else if (lib.timeParse (TrimSpace dateText)).isNone then some ValidationError.InvalidDate
  else if TrimSpace debitText ≠ "" ∧ isNonNegativeDecimal lib (TrimSpace debitText) = false then
    some ValidationError.InvalidDebit
  else if TrimSpace creditText ≠ "" ∧ isNonNegativeDecimal lib (TrimSpace creditText) = false then
    some ValidationError.InvalidCredit
  else if TrimSpace debitText ≠ "" ∧ TrimSpace creditText ≠ "" then
    some ValidationError.BothDebitAndCredit
  else if TrimSpace debitText = "" ∧ TrimSpace creditText = "" then
    some ValidationError.NeitherDebitNorCredit
  else none

/-- The amount the specification gives a side of the operation: zero when its
text is empty, the parsed number otherwise. -/
def amountOf (lib : Parsers) (text : String) : Float64 :=
  if TrimSpace text = "" then Float64.zero
  else (lib.parseFloat (TrimSpace text)).getD Float64.zero

/-- The specification's `parseOperation`: the error of the first failing rule,
or the operation with the unfilled side set to zero. -/
def parseOperation (lib : Parsers)
    (dateText descriptionText debitText creditText : String) :
    Except ValidationError Operation :=
  match firstFailingRule lib dateText descriptionText debitText creditText with
  | some e => Except.error e
  | none =>
    Except.ok
      { Date := (lib.timeParse (TrimSpace dateText)).getD { unixNano := 0 },
        Description := TrimSpace descriptionText,
        Debit := amountOf lib debitText,
        Credit := amountOf lib creditText }

/-- The invariant the specification states for an operation: a non-empty
description, two non-negative amounts, exactly one of them nonzero and the
other exactly zero. -/
def OperationInvariant (op : Operation) : Prop :=
  op.Description ≠ "" ∧
  Float64.le Float64.zero op.Debit = true ∧ Float64.le Float64.zero op.Credit = true ∧
  ((op.Debit ≠ Float64.zero ∧ op.Credit = Float64.zero) ∨
   (op.Debit = Float64.zero ∧ op.Credit ≠ Float64.zero))

/-- The ledger order: dates never decrease from one entry to the next. -/
def DateSorted (ops : List Operation) : Prop :=
  List.Pairwise (fun a b => a.Date.unixNano ≤ b.Date.unixNano) ops

instance (ops : List Operation) : Decidable (DateSorted ops) :=
  inferInstanceAs (Decidable (List.Pairwise _ ops))

/-! ## The delete key of the list page (`main.go`, lines 434-475) -/

/-- Modal shown when the header row is selected. -/
def delHeaderErrModal : Modal :=
  { pageNameSuffix := "delHeaderErrModal", title := "Action Impossible",
    message := "La ligne d'en-tête ne peut pas être supprimée.", buttons := ["OK"] }

/-- Modal shown when the selected row is no operation row. -/
def delInvalidRowErrModal : Modal :=
  { pageNameSuffix := "delInvalidRowErrModal", title := "Action Impossible",
    message := "Veuillez sélectionner une ligne d'opération valide à supprimer.",
    buttons := ["OK"] }

/-- Modal shown after a deletion. -/
def deleteSuccessModal : Modal :=
  { pageNameSuffix := "deleteSuccessModal", title := "Succès",
    message := "Opération supprimée.", buttons := ["OK"] }

/-- What the confirmation callback has captured when the prompt
`confirmDeleteOpModal` opens: the selected table row, the slice index and the
operation shown in the prompt. -/
structure PendingDelete where
  selectedRow : Int
  rowIndexInSlice : Int
  opToDelete : Operation
deriving DecidableEq

/-- Outcome of the delete key: an error modal, or the confirmation prompt. -/
inductive DeleteKeyResult where
  | rejected (modal : Modal)
  | pending (p : PendingDelete)
deriving DecidableEq

/-- Lines 435-452: the selection is checked and, when it designates an
operation, the confirmation prompt is opened. -/
def deleteKeyPressed (currentAccountData : AccountData) (selectedRow : Int) : DeleteKeyResult :=
  let rowIndexInSlice := selectedRow - 1
  if selectedRow = 0 then DeleteKeyResult.rejected delHeaderErrModal
  else if h : rowIndexInSlice < 0 ∨ (currentAccountData.Operations.length : Int) ≤ rowIndexInSlice
  then DeleteKeyResult.rejected delInvalidRowErrModal
  else
    DeleteKeyResult.pending
      { selectedRow := selectedRow, rowIndexInSlice := rowIndexInSlice,
        opToDelete := currentAccountData.Operations.get ⟨rowIndexInSlice.toNat, by omega⟩ }

/-- Line 455, `append(ops[:i], ops[i+1:]...)`, for an index `i < len(ops)`
(the only indices the handler passes). -/
def deleteAt (ops : List Operation) (rowIndexInSlice : Nat) : List Operation :=
  ops.take rowIndexInSlice ++ ops.drop (rowIndexInSlice + 1)

/-- Lines 460-468: the table row selected after a deletion, from the row
selected before and the number of operations left. -/
def selectionAfterDelete (selectedRow : Int) (remaining : Nat) : Int :=
  if remaining = 0 then 0
  else if selectedRow > (remaining : Int) then (remaining : Int)
  else selectedRow

/-- Lines 453-472, the callback of the confirmation prompt: the ledger
afterwards, the modal shown and the row selected, if any. -/
def confirmDeleteOp (currentAccountData : AccountData) (p : PendingDelete)
    (buttonLabel : String) : AccountData × Option Modal × Option Int :=
  if buttonLabel = "Oui" then
    let ops := deleteAt currentAccountData.Operations p.rowIndexInSlice.toNat
    ({ currentAccountData with Operations := ops }, some deleteSuccessModal,
      some (selectionAfterDelete p.selectedRow ops.length))
  else (currentAccountData, none, none)

/-- The delete key followed by the answer given to the prompt, when one is
opened: the ledger afterwards. -/
def deleteWorkflow (currentAccountData : AccountData) (selectedRow : Int)
    (buttonLabel : String) : AccountData :=
  match deleteKeyPressed currentAccountData selectedRow with
  | DeleteKeyResult.rejected _ => currentAccountData
  | DeleteKeyResult.pending p => (confirmDeleteOp currentAccountData p buttonLabel).1

/-- The delete key followed by the answer given to the prompt, when one is
opened: the table row passed to `Select` by lines 460-468, if any. -/
def deleteWorkflowSelection (currentAccountData : AccountData) (selectedRow : Int)
    (buttonLabel : String) : Option Int :=
  match deleteKeyPressed currentAccountData selectedRow with
  | DeleteKeyResult.rejected _ => none
  | DeleteKeyResult.pending p => (confirmDeleteOp currentAccountData p buttonLabel).2.2

/-! ## The balance column of `populateTableData` (`main.go`, lines 397-405) -/

/-- The values of one table row before they are formatted. -/
structure TableRow where
  date : Time
  description : String
  debit : Float64
  credit : Float64
  balance : Float64
deriving DecidableEq

/-- The loop of lines 398-405: `runningBalance` is updated with each
operation and written into the fifth cell of its row. -/
def populateRows (runningBalance : Float64) : List Operation → List TableRow
  | [] => []
  | op :: rest =>
    let runningBalance := Float64.add runningBalance (Float64.sub op.Credit op.Debit)
    { date := op.Date, description := op.Description, debit := op.Debit, credit := op.Credit,
      balance := runningBalance } :: populateRows runningBalance rest

/-- populateTableData fills the table with operations: the data rows, below
the header row, starting from a zero balance. -/
def populateTableData (currentAccountData : AccountData) : List TableRow :=
  populateRows Float64.zero currentAccountData.Operations

/-- The number a `float64` denotes when it is finite (zero otherwise). -/
def Float64.toRat : Float64 → ℚ
  | Float64.finite q => q
  | _ => 0

/-- A `float64` that is a number: neither an infinity nor NaN. -/
def Float64.isFinite : Float64 → Bool
  | Float64.finite _ => true
  | _ => false

/-! ## Errors of the Go library -/

/-- The error values this program meets: a `syscall.Errno`, an `*fs.PathError`
as returned by `os.ReadFile` and `os.WriteFile`, an `*fmt.wrapError` as built
by `fmt.Errorf` with the verb `%w`, and any other error with its text. -/
inductive GoError where
  | errno (code : Nat)
  | pathError (op : String) (path : String) (err : GoError)
  | wrapError (msg : String) (err : GoError)
  | other (msg : String)
deriving DecidableEq

/-- The errno of "no such file or directory". -/
def ENOENT : Nat := 2

/-- The text of a `syscall.Errno`. -/
def errnoText (code : Nat) : String :=
  if code = 2 then "no such file or directory"
  else if code = 13 then "permission denied"
  else if code = 21 then "is a directory"
  else "errno " ++ toString code

/-- The method `Error()`. -/
def GoError.Error : GoError → String
  | GoError.errno code => errnoText code
  | GoError.pathError op path err => op ++ " " ++ path ++ ": " ++ err.Error
  | GoError.wrapError msg _ => msg
  | GoError.other msg => msg

/-- Go's `fmt.Errorf(text + "%w", err)`: the message is formatted at once and
the wrapped error kept. -/
def fmtErrorfW (text : String) (err : GoError) : GoError :=
  GoError.wrapError (text ++ err.Error) err

/-- Go's `os.underlyingError`: only the library's own wrappers (`PathError`,
`LinkError`, `SyscallError`) are opened, not every error that has `Unwrap`. -/
def underlyingError : GoError → GoError
  | GoError.pathError _ _ err => err
  | err => err

/-- Go's `os.IsNotExist`: the underlying error is looked at, and it must be
the errno `ENOENT`. -/
def osIsNotExist (err : GoError) : Bool :=
  match underlyingError err with
  | GoError.errno code => code == ENOENT
  | _ => false

/-! ## Files and the JSON codec -/

/-- The files the program can reach: what reading a path gives (the content,
or the errno with which opening fails), the errno with which writing a path
fails, if it does, and whether a path keeps what is written to it. A regular
file does; a device such as `/dev/null` accepts the write and reads as
before, and so does a file that may be written but not read. -/
structure FileSystem where
  content : String → Except Nat String
  writeError : String → Option Nat
  keepsWrites : String → Bool

/-- Go's `os.ReadFile`. -/
def osReadFile (fs : FileSystem) (filePath : String) : Except GoError String :=
  match fs.content filePath with
  | Except.ok fileData => Except.ok fileData
  | Except.error code => Except.error (GoError.pathError "open" filePath (GoError.errno code))

/-- Go's `os.WriteFile`: on success a path that keeps what is written holds
exactly the bytes written, and any other path reads as before. -/
def osWriteFile (fs : FileSystem) (filePath : String) (fileData : String) :
    FileSystem × Option GoError :=
  match fs.writeError filePath with
  | some code => (fs, some (GoError.pathError "open" filePath (GoError.errno code)))
  | none =>
    if fs.keepsWrites filePath then
      ({ fs with
          content := fun p => if p = filePath then Except.ok fileData else fs.content p },
        none)
    else (fs, none)

/-- The two routines of `encoding/json` the program calls, for `AccountData`:
`json.MarshalIndent(data, "", "  ")` and `json.Unmarshal(fileData, &data)` on
a zero `data`, which returns the (possibly partly filled) value and the error. -/
structure JsonCodec where
  marshalIndent : AccountData → Except GoError String
  unmarshal : String → AccountData × Option GoError

/-! ## `fileops.go` -/

/-- saveData marshals AccountData to JSON and writes it to filePath. -/
def saveData (json : JsonCodec) (fs : FileSystem) (data : AccountData) (filePath : String) :
    FileSystem × Option GoError :=
  match json.marshalIndent data with
  | Except.error err => (fs, some (fmtErrorfW "error marshaling data: " err))
  | Except.ok jsonData =>
    match osWriteFile fs filePath jsonData with
    | (fs1, some err) => (fs1, some (fmtErrorfW "error writing file: " err))
    | (fs1, none) => (fs1, none)

/-- loadData reads JSON data from filePath and unmarshals it into AccountData. -/
def loadData (json : JsonCodec) (fs : FileSystem) (filePath : String) :
    AccountData × Option GoError :=
  match osReadFile fs filePath with
  | Except.error err =>
    ({ Operations := [], LastSaveDate := "" }, some (fmtErrorfW "error reading file: " err))
  | Except.ok fileData =>
    match json.unmarshal fileData with
    | (data, some err) => (data, some (fmtErrorfW "error unmarshaling data: " err))
    | (data, none) => (data, none)

/-! ## The "Charger" button of the load form (`main.go`, lines 190-220) -/

/-- Modal shown when no file name is given. -/
def loadFileEmptyErr : Modal :=
  { pageNameSuffix := "loadFileEmptyErr", title := "Erreur",
    message := "Veuillez entrer un nom de fichier.", buttons := ["OK"] }

/-- The prompt asking whether to load. -/
def confirmLoadFile (fileName : String) : Modal :=
  { pageNameSuffix := "confirmLoadFile", title := "Confirmer le chargement",
    message := "Charger les données depuis '" ++ fileName ++
      "' ? Les données non sauvegardées seront perdues.",
    buttons := ["Oui", "Non"] }

/-- Modal shown when loading fails, with its message. -/
def loadFileErr (errorMsg : String) : Modal :=
  { pageNameSuffix := "loadFileErr", title := "Erreur Chargement",
    message := errorMsg, buttons := ["OK"] }

/-- Modal shown when loading succeeds. -/
def loadFileSuccess (fileName : String) : Modal :=
  { pageNameSuffix := "loadFileSuccess", title := "Succès",
    message := "Données chargées avec succès depuis '" ++ fileName ++ "'.",
    buttons := ["OK"] }

/-- The message of line 204. -/
def genericLoadMessage (err : GoError) : String :=
  "Erreur lors du chargement du fichier: " ++ err.Error

/-- The message of line 206. -/
def notFoundMessage (fileName : String) : String :=
  "Fichier '" ++ fileName ++ "' non trouvé."

/-- Lines 200-219, the callback of the load prompt: the ledger afterwards and
the modal shown, if any. -/
def confirmLoadFileDone (json : JsonCodec) (fs : FileSystem) (currentAccountData : AccountData)
    (fileName : String) (buttonLabel : String) : AccountData × Option Modal :=
  if buttonLabel = "Oui" then
    match loadData json fs fileName with
    | (_, some err) =>
      let errorMsg :=
        if osIsNotExist err then notFoundMessage fileName else genericLoadMessage err
      (currentAccountData, some (loadFileErr errorMsg))
    | (loadedOps, none) =>
      ({ Operations := sortOperations loadedOps.Operations,
         LastSaveDate := loadedOps.LastSaveDate },
        some (loadFileSuccess fileName))
  else (currentAccountData, none)

/-- The whole "Charger" handler followed by the answer given to the prompt,
when one is opened: the ledger afterwards and the modals shown, in order. -/
def loadDataCharger (json : JsonCodec) (fs : FileSystem) (currentAccountData : AccountData)
    (fileNameText : String) (buttonLabel : String) : AccountData × List Modal :=
  let fileName := TrimSpace fileNameText
  if fileName = "" then (currentAccountData, [loadFileEmptyErr])
  else
    match confirmLoadFileDone json fs currentAccountData fileName buttonLabel with
    | (data, some modal) => (data, [confirmLoadFile fileName, modal])
    | (data, none) => (data, [confirmLoadFile fileName])

/-! ## The "Sauvegarder" button of the save form (`main.go`, lines 242-277) -/

/-- The handler of the save form followed by the answer given to its prompt,
when one is opened: the ledger and the files afterwards. The last-save date
is stored before `saveData` is called. -/
def saveDataSauvegarder (lib : Parsers) (json : JsonCodec) (fs : FileSystem)
    (currentAccountData : AccountData) (saveDateText fileNameText : String)
    (buttonLabel : String) : AccountData × FileSystem :=
  let saveDateStr := TrimSpace saveDateText
  let fileNameStr := TrimSpace fileNameText
  if saveDateStr = "" then (currentAccountData, fs)
  else
    match lib.timeParse saveDateStr with
    | none => (currentAccountData, fs)
    | some _ =>
      if fileNameStr = "" then (currentAccountData, fs)
      else if buttonLabel = "Oui" then
        let data := { currentAccountData with LastSaveDate := saveDateStr }
        (data, (saveData json fs data fileNameStr).1)
      else (currentAccountData, fs)

/-! ## Reachable ledgers -/

/-- The ledgers the program can hold: the initial one, and what any of the
four handlers that assign `currentAccountData` leaves, whatever the form
texts, the selected row, the answers to the prompts, the files and the
library routines are. -/
inductive Reachable : AccountData → Prop where
  | init : Reachable initialAccountData
  | add {data : AccountData} (lib : Parsers)
      (dateText descriptionText debitText creditText : String) :
      Reachable data →
      Reachable (addOperationSauvegarder lib data dateText descriptionText debitText creditText).1
  | delete {data : AccountData} (selectedRow : Int) (buttonLabel : String) :
      Reachable data → Reachable (deleteWorkflow data selectedRow buttonLabel)
  | load {data : AccountData} (json : JsonCodec) (fs : FileSystem)
      (fileNameText buttonLabel : String) :
      Reachable data → Reachable (loadDataCharger json fs data fileNameText buttonLabel).1
  | save {data : AccountData} (lib : Parsers) (json : JsonCodec) (fs : FileSystem)
      (saveDateText fileNameText buttonLabel : String) :
      Reachable data →
      Reachable (saveDataSauvegarder lib json fs data saveDateText fileNameText buttonLabel).1

/-! ## Concrete files and codec used to evaluate the handlers -/

/-- A directory in which no file exists: every read fails with `ENOENT`, and
every write succeeds and creates a regular file. -/
def emptyFileSystem : FileSystem :=
  { content := fun _ => Except.error ENOENT, writeError := fun _ => none,
    keepsWrites := fun _ => true }

/-- The same, with the device `/dev/null`: it reads as empty, accepts every
write and keeps none. -/
def deviceFileSystem : FileSystem :=
  { content := fun p => if p = "/dev/null" then Except.ok "" else Except.error ENOENT,
    writeError := fun _ => none,
    keepsWrites := fun p => decide (p ≠ "/dev/null") }

/-- The ledger after three operations entered in the form: a credit of
10000000000000000, a credit of 1, and a debit of 10000000000000000. -/
def roundingExample : AccountData :=
  (addOperationSauvegarder goParsers
    (addOperationSauvegarder goParsers
      (addOperationSauvegarder goParsers initialAccountData
        "01/01/24" "a" "" "10000000000000000").1
      "02/01/24" "b" "" "1").1
    "03/01/24" "c" "10000000000000000" "").1

/-- The JSON text `json.MarshalIndent` prints for the empty ledger. -/
def emptyLedgerJson : String :=
  "\x7b\n  \"Operations\": [],\n  \"LastSaveDate\": \"\"\n\x7d"

/-- A ledger with one credit of 100 dated 15/03/24, saved on 16/03/24. -/
def sampleLedger : AccountData :=
  { Operations :=
      [{ Date := { unixNano := 1710460800000000000 }, Description := "Rent",
         Debit := Float64.finite 0, Credit := Float64.finite 100 }],
    LastSaveDate := "16/03/24" }

/-- The JSON text `json.MarshalIndent` prints for `sampleLedger`. -/
def sampleLedgerJson : String :=
  "\x7b\n  \"Operations\": [\n    \x7b\n      \"Date\": \"2024-03-15T00:00:00Z\",\n" ++
  "      \"Description\": \"Rent\",\n      \"Debit\": 0,\n      \"Credit\": 100\n    \x7d\n  ],\n" ++
  "  \"LastSaveDate\": \"16/03/24\"\n\x7d"

/-- The ledger of the balance example of section 8: the (debit, credit) pairs
(0,100), (50,0) and (0,25). -/
def balanceExample : AccountData :=
  { Operations :=
      [{ Date := { unixNano := 1 }, Description := "a", Debit := Float64.finite 0,
         Credit := Float64.finite 100 },
       { Date := { unixNano := 2 }, Description := "b", Debit := Float64.finite 50,
         Credit := Float64.finite 0 },
       { Date := { unixNano := 3 }, Description := "c", Debit := Float64.finite 0,
         Credit := Float64.finite 25 }],
    LastSaveDate := "" }

/-- An example ledger for insertion: two entries dated 1 and one dated 2. -/
def stableExampleOps : List Operation :=
  [{ Date := { unixNano := 1 }, Description := "a", Debit := Float64.finite 1,
     Credit := Float64.zero },
   { Date := { unixNano := 1 }, Description := "b", Debit := Float64.finite 1,
     Credit := Float64.zero },
   { Date := { unixNano := 2 }, Description := "c", Debit := Float64.finite 1,
     Credit := Float64.zero }]

/-- An operation to insert, identical to the first entry of `stableExampleOps`. -/
def stableExampleOp : Operation :=
  { Date := { unixNano := 1 }, Description := "a", Debit := Float64.finite 1,
    Credit := Float64.zero }

/-- The ledger expected after inserting `stableExampleOp` into
`stableExampleOps`. -/
def stableExampleResult : List Operation :=
  [{ Date := { unixNano := 1 }, Description := "a", Debit := Float64.finite 1,
     Credit := Float64.zero },
   { Date := { unixNano := 1 }, Description := "b", Debit := Float64.finite 1,
     Credit := Float64.zero },
   { Date := { unixNano := 1 }, Description := "a", Debit := Float64.finite 1,
     Credit := Float64.zero },
   { Date := { unixNano := 2 }, Description := "c", Debit := Float64.finite 1,
     Credit := Float64.zero }]

/-- The codec restricted to a table of ledgers and their JSON texts: a ledger
of the table is marshalled to its text and a text of the table unmarshalled
to its ledger; anything else is reported as an error. -/
def tableCodec (table : List (AccountData × String)) : JsonCodec :=
  { marshalIndent := fun data =>
      match table.find? (fun e => decide (e.1 = data)) with
      | some e => Except.ok e.2
      | none => Except.error (GoError.other "json: value outside the table")
    unmarshal := fun fileData =>
      match table.find? (fun e => decide (e.2 = fileData)) with
      | some e => (e.1, none)
      | none =>
        ({ Operations := [], LastSaveDate := "" },
          some (GoError.other "json: text outside the table")) }

/-- The codec on the empty ledger and on `sampleLedger`. -/
def sampleCodec : JsonCodec :=
  tableCodec [(initialAccountData, emptyLedgerJson), (sampleLedger, sampleLedgerJson)]

/-! ## Facts about the comparisons -/

set_option maxRecDepth 20000

theorem Float64.le_zero_eq_not_lt {v : Float64} (hn : v ≠ Float64.nan) :
    Float64.le Float64.zero v = !Float64.lt v Float64.zero := by
  cases v with
  | finite q =>
    by_cases h : q < 0
    · simp [Float64.lt, Float64.le, Float64.zero, h, not_le.mpr h]
    · simp [Float64.lt, Float64.le, Float64.zero, h, not_lt.mp h]
  | posInf => rfl
  | negInf => rfl
  | nan => exact absurd rfl hn

theorem Float64.lt_zero_zero : Float64.lt Float64.zero Float64.zero = false := by
  simp [Float64.lt, Float64.zero]

theorem Float64.lt_nan_zero : Float64.lt Float64.nan Float64.zero = false := rfl

theorem Float64.le_zero_nan : Float64.le Float64.zero Float64.nan = false := rfl

/-! ## Validation: the handler against the rules of the specification -/

/-- On every input whose amount texts do not parse to NaN, the handler does
what the six ordered rules say: it shows the modal of the first failing rule,
and builds the operation when no rule fails. -/
theorem validateOperation_eq_parseOperation (lib : Parsers)
    (dateText descriptionText debitText creditText : String)
    (hd : lib.parseFloat (TrimSpace debitText) ≠ some Float64.nan)
    (hc : lib.parseFloat (TrimSpace creditText) ≠ some Float64.nan) :
    validateOperation lib dateText descriptionText debitText creditText =
      match parseOperation lib dateText descriptionText debitText creditText with
      | Except.error e => Except.error e.modal
      | Except.ok op => Except.ok op := by
  unfold validateOperation parseOperation firstFailingRule amountOf isNonNegativeDecimal
  by_cases h1 : TrimSpace descriptionText = ""
  · simp [h1, ValidationError.modal]
  · cases h2 : lib.timeParse (TrimSpace dateText) with
    | none => simp [h1, h2, ValidationError.modal]
    | some t =>
      by_cases h3 : TrimSpace debitText = "" <;> by_cases h4 : TrimSpace creditText = ""
      · simp [h1, h2, h3, h4, ValidationError.modal]
      · cases h5 : lib.parseFloat (TrimSpace creditText) with
        | none => simp [h1, h2, h3, h4, h5, ValidationError.modal]
        | some v =>
          have hv : v ≠ Float64.nan := by rintro rfl; exact hc h5
          have hle := Float64.le_zero_eq_not_lt hv
          cases h6 : Float64.lt v Float64.zero <;>
            simp [h1, h2, h3, h4, h5, h6, hle, ValidationError.modal]
      · cases h5 : lib.parseFloat (TrimSpace debitText) with
        | none => simp [h1, h2, h3, h4, h5, ValidationError.modal]
        | some v =>
          have hv : v ≠ Float64.nan := by rintro rfl; exact hd h5
          have hle := Float64.le_zero_eq_not_lt hv
          cases h6 : Float64.lt v Float64.zero <;>
            simp [h1, h2, h3, h4, h5, h6, hle, ValidationError.modal]
      · cases h5 : lib.parseFloat (TrimSpace debitText) with
        | none => simp [h1, h2, h3, h4, h5, ValidationError.modal]
        | some v =>
          have hv : v ≠ Float64.nan := by rintro rfl; exact hd h5
          have hle := Float64.le_zero_eq_not_lt hv
          cases h6 : Float64.lt v Float64.zero
          · cases h7 : lib.parseFloat (TrimSpace creditText) with
            | none => simp [h1, h2, h3, h4, h5, h6, h7, hle, ValidationError.modal]
            | some w =>
              have hw : w ≠ Float64.nan := by rintro rfl; exact hc h7
              have hle2 := Float64.le_zero_eq_not_lt hw
              cases h8 : Float64.lt w Float64.zero <;>
                simp [h1, h2, h3, h4, h5, h6, h7, h8, hle, hle2, ValidationError.modal]
          · simp [h1, h2, h3, h4, h5, h6, hle, ValidationError.modal]

/-- The handler shows a validation modal exactly when validation fails, and
otherwise stores the operation: the ledger is changed only on acceptance. -/
theorem addOperationSauvegarder_rejects (lib : Parsers) (data : AccountData)
    (dateText descriptionText debitText creditText : String) (m : Modal)
    (h : validateOperation lib dateText descriptionText debitText creditText = Except.error m) :
    addOperationSauvegarder lib data dateText descriptionText debitText creditText = (data, m) := by
  simp [addOperationSauvegarder, h]

/-! ## The stable sort -/

section StableSort

variable {α : Type} {less : α → α → Bool} {k : α → Int}

theorem perm_insertStable (less : α → α → Bool) (x : α) (l : List α) :
    (insertStable less x l).Perm (x :: l) := by
  induction l with
  | nil => exact List.Perm.refl _
  | cons y ys ih =>
    unfold insertStable
    split
    · exact List.Perm.refl _
    · exact (List.Perm.cons y ih).trans (List.Perm.swap x y ys)

theorem pairwise_insertStable (hless : ∀ a b, less a b = true ↔ k a < k b) (x : α)
    (l : List α) (hl : l.Pairwise (fun a b => k a ≤ k b)) :
    (insertStable less x l).Pairwise (fun a b => k a ≤ k b) := by
  induction l with
  | nil => simp [insertStable]
  | cons y ys ih =>
    rw [List.pairwise_cons] at hl
    unfold insertStable
    split
    · rename_i h
      have hxy : k x < k y := (hless x y).1 h
      refine List.pairwise_cons.2 ⟨?_, List.pairwise_cons.2 hl⟩
      intro b hb
      rcases List.mem_cons.1 hb with rfl | hb
      · exact le_of_lt hxy
      · exact le_trans (le_of_lt hxy) (hl.1 b hb)
    · rename_i h
      have hyx : k y ≤ k x := by
        by_contra hc
        exact h ((hless x y).2 (not_le.1 hc))
      refine List.pairwise_cons.2 ⟨?_, ih hl.2⟩
      intro b hb
      rcases List.mem_cons.1 ((perm_insertStable less x ys).subset hb) with rfl | hb
      · exact hyx
      · exact hl.1 b hb

theorem filter_insertStable (hless : ∀ a b, less a b = true ↔ k a < k b) (x : α)
    (l : List α) (hl : l.Pairwise (fun a b => k a ≤ k b)) (d : Int) :
    (insertStable less x l).filter (fun a => decide (k a = d)) =
      l.filter (fun a => decide (k a = d)) ++ [x].filter (fun a => decide (k a = d)) := by
  induction l with
  | nil => simp [insertStable]
  | cons y ys ih =>
    rw [List.pairwise_cons] at hl
    unfold insertStable
    split
    · rename_i h
      have hxy : k x < k y := (hless x y).1 h
      by_cases hx : k x = d
      · have hnone : (y :: ys).filter (fun a => decide (k a = d)) = [] := by
          rw [List.filter_eq_nil_iff]
          intro a ha
          have : k y ≤ k a := by
            rcases List.mem_cons.1 ha with rfl | ha
            · exact le_refl _
            · exact hl.1 a ha
          simp only [decide_eq_true_eq]
          omega
        rw [hnone, List.filter_cons_of_pos (by simpa using hx), hnone]
        simp [hx]
      · rw [List.filter_cons_of_neg (by simpa using hx)]
        simp [hx]
    · rw [List.filter_cons, List.filter_cons, ih hl.2]
      split <;> simp

theorem insertStable_of_forall_le (hless : ∀ a b, less a b = true ↔ k a < k b) (x : α)
    (l : List α) (h : ∀ y ∈ l, k y ≤ k x) : insertStable less x l = l ++ [x] := by
  induction l with
  | nil => rfl
  | cons y ys ih =>
    have hy : less x y = false := by
      cases hb : less x y
      · rfl
      · have := (hless x y).1 hb
        have := h y (List.mem_cons_self _ _)
        omega
    simp [insertStable, hy, ih (fun z hz => h z (List.mem_cons_of_mem _ hz))]

theorem SliceStable_append_singleton (less : α → α → Bool) (l : List α) (x : α) :
    SliceStable less (l ++ [x]) = insertStable less x (SliceStable less l) := by
  simp [SliceStable, List.foldl_append]

theorem perm_SliceStable (less : α → α → Bool) (l : List α) : (SliceStable less l).Perm l := by
  induction l using List.reverseRecOn with
  | nil => exact List.Perm.refl _
  | append_singleton l x ih =>
    rw [SliceStable_append_singleton]
    exact ((perm_insertStable less x _).trans (List.Perm.cons x ih)).trans
      (List.perm_append_singleton x l).symm

theorem pairwise_SliceStable (hless : ∀ a b, less a b = true ↔ k a < k b) (l : List α) :
    (SliceStable less l).Pairwise (fun a b => k a ≤ k b) := by
  induction l using List.reverseRecOn with
  | nil => simp [SliceStable]
  | append_singleton l x ih =>
    rw [SliceStable_append_singleton]
    exact pairwise_insertStable hless x _ ih

theorem filter_SliceStable (hless : ∀ a b, less a b = true ↔ k a < k b) (l : List α) (d : Int) :
    (SliceStable less l).filter (fun a => decide (k a = d)) =
      l.filter (fun a => decide (k a = d)) := by
  induction l using List.reverseRecOn with
  | nil => simp [SliceStable]
  | append_singleton l x ih =>
    rw [SliceStable_append_singleton,
      filter_insertStable hless x _ (pairwise_SliceStable hless l) d, ih, List.filter_append]

theorem SliceStable_of_pairwise (hless : ∀ a b, less a b = true ↔ k a < k b) (l : List α)
    (hl : l.Pairwise (fun a b => k a ≤ k b)) : SliceStable less l = l := by
  induction l using List.reverseRecOn with
  | nil => rfl
  | append_singleton l x ih =>
    rw [List.pairwise_append] at hl
    rw [SliceStable_append_singleton, ih hl.1]
    exact insertStable_of_forall_le hless x l (fun y hy => hl.2.2 y hy x (List.mem_singleton_self x))

end StableSort

theorem before_iff (a b : Operation) :
    (fun a b : Operation => a.Date.Before b.Date) a b = true ↔
      a.Date.unixNano < b.Date.unixNano := by
  simp [Time.Before]

theorem sortOperations_perm (ops : List Operation) : (sortOperations ops).Perm ops :=
  perm_SliceStable _ ops

theorem sortOperations_sorted (ops : List Operation) : DateSorted (sortOperations ops) :=
  pairwise_SliceStable (k := fun o : Operation => o.Date.unixNano) before_iff ops

theorem sortOperations_filter (ops : List Operation) (t : Time) :
    (sortOperations ops).filter (fun o => decide (o.Date = t)) =
      ops.filter (fun o => decide (o.Date = t)) := by
  have h := filter_SliceStable (k := fun o : Operation => o.Date.unixNano) before_iff ops
    t.unixNano
  have hk : (fun o : Operation => decide (o.Date = t)) =
      (fun o : Operation => decide (o.Date.unixNano = t.unixNano)) := by
    funext o
    cases hd : o.Date
    cases t
    simp
  rw [hk]
  exact h

theorem sortOperations_of_sorted (ops : List Operation) (h : DateSorted ops) :
    sortOperations ops = ops :=
  SliceStable_of_pairwise (k := fun o : Operation => o.Date.unixNano) before_iff ops h

/-! ## C1: order of the validation rules -/

/-- The examples of section 8 on the library models: the rent operation is
accepted with date 2024-03-15, debit 0 and credit 1200.50, two filled amounts
are refused as a combination and two empty amounts as missing. -/
theorem validateOperation_examples :
    validateOperation goParsers "15/03/24" "Rent" "" "1200.50" =
      Except.ok { Date := { unixNano := 1710460800000000000 }, Description := "Rent",
                  Debit := Float64.finite 0, Credit := Float64.finite 1200.5 } ∧
    validateOperation goParsers "15/03/24" "Rent" "10" "5" = Except.error debitCreditComboErr ∧
    validateOperation goParsers "15/03/24" "Rent" "" "" = Except.error debitCreditMissingErr := by
  refine ⟨by decide!, by decide!, by decide!⟩

/-- C1, at the debit text `NaN`: the description and the date are in order,
the credit is left empty, and the debit text is not a non-negative decimal
number, so that rule 3 of the specification fails with `InvalidDebit`; the
handler nevertheless builds the operation, with a NaN debit, because
`strconv.ParseFloat` returns NaN without error and `NaN < 0` is false. -/
theorem validateOperation_accepts_nan_debit :
    validateOperation goParsers "15/03/24" "Rent" "NaN" "" =
      Except.ok { Date := { unixNano := 1710460800000000000 }, Description := "Rent",
                  Debit := Float64.nan, Credit := Float64.zero } ∧
    firstFailingRule goParsers "15/03/24" "Rent" "NaN" "" =
      some ValidationError.InvalidDebit ∧
    (addOperationSauvegarder goParsers initialAccountData "15/03/24" "Rent" "NaN" "").2 =
      saveSuccess := by
  refine ⟨by decide, by decide, by decide⟩

/-! ## C2: what holds of an accepted operation -/

/-- C2 as stated fails at the debit text `0`: the operation is accepted with
debit 0 and credit 0, so neither amount is nonzero. -/
theorem validateOperation_zero_debit_accepted :
    validateOperation goParsers "15/03/24" "Rent" "0" "" =
      Except.ok { Date := { unixNano := 1710460800000000000 }, Description := "Rent",
                  Debit := Float64.finite 0, Credit := Float64.finite 0 } ∧
    ¬ OperationInvariant { Date := { unixNano := 1710460800000000000 }, Description := "Rent",
                           Debit := Float64.finite 0, Credit := Float64.finite 0 } := by
  refine ⟨by decide, ?_⟩
  simp [OperationInvariant, Float64.zero]

/-- C2, amended: an operation built by the handler has the trimmed, non-empty
description; exactly one of the two amount texts was filled in and the side
whose text was left empty is exactly zero; no amount compares below zero, and
an amount that is a number (not NaN) is at least zero, possibly zero. -/
theorem validateOperation_ok_properties (lib : Parsers)
    (dateText descriptionText debitText creditText : String) (op : Operation)
    (h : validateOperation lib dateText descriptionText debitText creditText = Except.ok op) :
    op.Description = TrimSpace descriptionText ∧ op.Description ≠ "" ∧
    Float64.lt op.Debit Float64.zero = false ∧ Float64.lt op.Credit Float64.zero = false ∧
    (op.Debit ≠ Float64.nan → Float64.le Float64.zero op.Debit = true) ∧
    (op.Credit ≠ Float64.nan → Float64.le Float64.zero op.Credit = true) ∧
    ((TrimSpace debitText ≠ "" ∧ TrimSpace creditText = "" ∧ op.Credit = Float64.zero) ∨
     (TrimSpace debitText = "" ∧ TrimSpace creditText ≠ "" ∧ op.Debit = Float64.zero)) := by
  have key : op.Description = TrimSpace descriptionText ∧ op.Description ≠ "" ∧
      Float64.lt op.Debit Float64.zero = false ∧ Float64.lt op.Credit Float64.zero = false ∧
      ((TrimSpace debitText ≠ "" ∧ TrimSpace creditText = "" ∧ op.Credit = Float64.zero) ∨
       (TrimSpace debitText = "" ∧ TrimSpace creditText ≠ "" ∧ op.Debit = Float64.zero)) := by
    unfold validateOperation at h
    by_cases h1 : TrimSpace descriptionText = ""
    · simp [h1] at h
    · cases h2 : lib.timeParse (TrimSpace dateText) with
      | none => simp [h1, h2] at h
      | some t =>
        by_cases h3 : TrimSpace debitText = "" <;> by_cases h4 : TrimSpace creditText = ""
        · simp [h1, h2, h3, h4] at h
        · cases h5 : lib.parseFloat (TrimSpace creditText) with
          | none => simp [h1, h2, h3, h4, h5] at h
          | some v =>
            cases h6 : Float64.lt v Float64.zero
            · simp [h1, h2, h3, h4, h5, h6] at h
              subst h
              simp [h1, h3, h4, h6, Float64.lt_zero_zero]
            · simp [h1, h2, h3, h4, h5, h6] at h
        · cases h5 : lib.parseFloat (TrimSpace debitText) with
          | none => simp [h1, h2, h3, h4, h5] at h
          | some v =>
            cases h6 : Float64.lt v Float64.zero
            · simp [h1, h2, h3, h4, h5, h6] at h
              subst h
              simp [h1, h3, h4, h6, Float64.lt_zero_zero]
            · simp [h1, h2, h3, h4, h5, h6] at h
        · cases h5 : lib.parseFloat (TrimSpace debitText) with
          | none => simp [h1, h2, h3, h4, h5] at h
          | some v =>
            cases h6 : Float64.lt v Float64.zero
            · cases h7 : lib.parseFloat (TrimSpace creditText) with
              | none => simp [h1, h2, h3, h4, h5, h6, h7] at h
              | some w =>
                cases h8 : Float64.lt w Float64.zero <;>
                  simp [h1, h2, h3, h4, h5, h6, h7, h8] at h
            · simp [h1, h2, h3, h4, h5, h6] at h
  obtain ⟨k1, k2, k3, k4, k5⟩ := key
  refine ⟨k1, k2, k3, k4, ?_, ?_, k5⟩
  · intro hn
    rw [Float64.le_zero_eq_not_lt hn, k3]
    rfl
  · intro hn
    rw [Float64.le_zero_eq_not_lt hn, k4]
    rfl

/-- The amended C2 at the accepted input with debit text `0` and an empty
credit text: the debit text is the one filled in, and the credit is zero. -/
theorem validateOperation_ok_properties_witness :
    validateOperation goParsers "15/03/24" "Rent" "0" "" =
      Except.ok { Date := { unixNano := 1710460800000000000 }, Description := "Rent",
                  Debit := Float64.finite 0, Credit := Float64.finite 0 } ∧
    ((TrimSpace "0" ≠ "" ∧ TrimSpace "" = "" ∧ Float64.finite 0 = Float64.zero) ∨
     (TrimSpace "0" = "" ∧ TrimSpace "" ≠ "" ∧ Float64.finite 0 = Float64.zero)) :=
  ⟨by decide,
    (validateOperation_ok_properties goParsers "15/03/24" "Rent" "0" ""
      { Date := { unixNano := 1710460800000000000 }, Description := "Rent",
        Debit := Float64.finite 0, Credit := Float64.finite 0 } (by decide)).2.2.2.2.2.2⟩

/-! ## C3: insertion is a stable sort of the appended sequence -/

theorem filter_date_cons_self (a : Operation) (l : List Operation) :
    (a :: l).filter (fun o => decide (o.Date = a.Date)) =
      a :: l.filter (fun o => decide (o.Date = a.Date)) := by
  simp

theorem dateSorted_head_le (a x : Operation) (l : List Operation) (h : DateSorted (a :: l))
    (hx : x ∈ (a :: l).filter (fun o => decide (o.Date = x.Date))) :
    a.Date.unixNano ≤ x.Date.unixNano := by
  have hmem : x ∈ a :: l := (List.mem_filter.1 hx).1
  rcases List.mem_cons.1 hmem with rfl | hl
  · exact le_refl _
  · exact (List.pairwise_cons.1 h).1 x hl

/-- A sequence in date order is determined by its entries date by date: two
sequences in date order that have, for every date, the same entries of that
date in the same order, are equal. -/
theorem dateSorted_eq_of_filter_eq (l1 l2 : List Operation) (h1 : DateSorted l1)
    (h2 : DateSorted l2)
    (hf : ∀ t : Time, l1.filter (fun o => decide (o.Date = t)) =
      l2.filter (fun o => decide (o.Date = t))) : l1 = l2 := by
  induction l1 generalizing l2 with
  | nil =>
    cases l2 with
    | nil => rfl
    | cons b l2 =>
      have := hf b.Date
      rw [filter_date_cons_self] at this
      simp at this
  | cons a l1 ih =>
    cases l2 with
    | nil =>
      have := hf a.Date
      rw [filter_date_cons_self] at this
      simp at this
    | cons b l2 =>
      have ha := hf a.Date
      have hb := hf b.Date
      have hab : b.Date.unixNano ≤ a.Date.unixNano := by
        apply dateSorted_head_le b a l2 h2
        rw [← ha, filter_date_cons_self]
        exact List.mem_cons_self _ _
      have hba : a.Date.unixNano ≤ b.Date.unixNano := by
        apply dateSorted_head_le a b l1 h1
        rw [hb, filter_date_cons_self]
        exact List.mem_cons_self _ _
      have hd : b.Date = a.Date := by
        cases hda : a.Date
        cases hdb : b.Date
        rw [hda, hdb] at hab hba
        simp at hab hba
        congr
        omega
      rw [filter_date_cons_self, ← hd, filter_date_cons_self] at ha
      have hhead : a = b := (List.cons.inj ha).1
      subst hhead
      congr 1
      apply ih l2 (List.Pairwise.of_cons h1) (List.Pairwise.of_cons h2)
      intro t
      have ht := hf t
      by_cases hta : a.Date = t
      · rw [List.filter_cons_of_pos (by simpa using hta),
          List.filter_cons_of_pos (by simpa using hta)] at ht
        exact (List.cons.inj ht).2
      · rw [List.filter_cons_of_neg (by simpa using hta),
          List.filter_cons_of_neg (by simpa using hta)] at ht
        exact ht

/-- C3: for every sequence `ops` and every operation `op`, the handler's
insertion gives a permutation of `ops ++ [op]` of length `len(ops) + 1` in
which `op` occurs once more than in `ops` (no deduplication), sorted by
ascending date, and in which the entries of any one date stand in the order
they have in `ops ++ [op]`; so the entries of the date of `op` are those of
`ops`, in their order, followed by `op`. It is the only sequence in date
order that keeps the entries of every date in their order. -/
theorem insertOperation_stable_sort (ops : List Operation) (op : Operation) :
    (insertOperation ops op).Perm (ops ++ [op]) ∧
    (insertOperation ops op).length = ops.length + 1 ∧
    (insertOperation ops op).count op = ops.count op + 1 ∧
    DateSorted (insertOperation ops op) ∧
    (∀ t : Time, (insertOperation ops op).filter (fun o => decide (o.Date = t)) =
      (ops ++ [op]).filter (fun o => decide (o.Date = t))) ∧
    (insertOperation ops op).filter (fun o => decide (o.Date = op.Date)) =
      ops.filter (fun o => decide (o.Date = op.Date)) ++ [op] ∧
    (∀ r : List Operation, DateSorted r →
      (∀ t : Time, r.filter (fun o => decide (o.Date = t)) =
        (ops ++ [op]).filter (fun o => decide (o.Date = t))) →
      r = insertOperation ops op) := by
  have hp : (insertOperation ops op).Perm (ops ++ [op]) := sortOperations_perm _
  refine ⟨hp, ?_, ?_, sortOperations_sorted _, fun t => sortOperations_filter _ t, ?_, ?_⟩
  · rw [hp.length_eq]; simp
  · rw [hp.count_eq]; simp
  · have := sortOperations_filter (ops ++ [op]) op.Date
    unfold insertOperation
    rw [this, List.filter_append]
    simp
  · intro r hr hf
    apply dateSorted_eq_of_filter_eq r _ hr (sortOperations_sorted _)
    intro t
    rw [hf t]
    exact (sortOperations_filter _ t).symm

/-- C3 on a ledger with two entries of one date and a later one: an operation
of the first date, identical to the first entry, goes behind the two entries
of its date and in front of the later one, and is kept as a second entry. -/
theorem insertOperation_stable_sort_witness :
    insertOperation stableExampleOps stableExampleOp = stableExampleResult :=
  ((insertOperation_stable_sort stableExampleOps stableExampleOp).2.2.2.2.2.2
    stableExampleResult (by decide) (by
      intro t
      by_cases h1 : ({ unixNano := 1 } : Time) = t
      · subst h1; decide
      · by_cases h2 : ({ unixNano := 2 } : Time) = t
        · subst h2; decide
        · simp [stableExampleResult, stableExampleOps, stableExampleOp, h1, h2])).symm

/-! ## C4: every reachable ledger is sorted by date -/

theorem deleteAt_eq_eraseIdx (ops : List Operation) (i : Nat) :
    deleteAt ops i = ops.eraseIdx i := by
  unfold deleteAt
  rw [List.eraseIdx_eq_take_drop_succ]

theorem deleteAt_sorted (ops : List Operation) (i : Nat) (h : DateSorted ops) :
    DateSorted (deleteAt ops i) := by
  rw [deleteAt_eq_eraseIdx]
  exact List.Pairwise.sublist (List.eraseIdx_sublist ops i) h

theorem deleteWorkflow_sorted (data : AccountData) (selectedRow : Int) (buttonLabel : String)
    (h : DateSorted data.Operations) :
    DateSorted (deleteWorkflow data selectedRow buttonLabel).Operations := by
  unfold deleteWorkflow
  split
  · exact h
  · unfold confirmDeleteOp
    split
    · exact deleteAt_sorted _ _ h
    · exact h

theorem addOperationSauvegarder_sorted (lib : Parsers) (data : AccountData)
    (dateText descriptionText debitText creditText : String) :
    DateSorted data.Operations →
    DateSorted
      (addOperationSauvegarder lib data dateText descriptionText debitText creditText).1.Operations := by
  intro h
  unfold addOperationSauvegarder
  split
  · exact h
  · exact sortOperations_sorted _

theorem loadDataCharger_sorted (json : JsonCodec) (fs : FileSystem) (data : AccountData)
    (fileNameText buttonLabel : String) (h : DateSorted data.Operations) :
    DateSorted (loadDataCharger json fs data fileNameText buttonLabel).1.Operations := by
  have hc : ∀ name, DateSorted (confirmLoadFileDone json fs data name buttonLabel).1.Operations := by
    intro name
    unfold confirmLoadFileDone
    split
    · split
      · exact h
      · exact sortOperations_sorted _
    · exact h
  unfold loadDataCharger
  simp only []
  split
  · exact h
  · have := hc (TrimSpace fileNameText)
    split <;> rename_i heq <;> rw [heq] at this <;> exact this

theorem saveDataSauvegarder_operations (lib : Parsers) (json : JsonCodec) (fs : FileSystem)
    (data : AccountData) (saveDateText fileNameText buttonLabel : String) :
    (saveDataSauvegarder lib json fs data saveDateText fileNameText buttonLabel).1.Operations =
      data.Operations := by
  unfold saveDataSauvegarder
  simp only []
  split
  · rfl
  · split
    · rfl
    · split
      · rfl
      · split <;> rfl

/-- C4: in every ledger reachable from the initial, empty ledger through the
handlers (insertions, deletions, loads of any file content, saves), the
operations are in ascending date order. -/
theorem reachable_dateSorted (data : AccountData) (h : Reachable data) :
    DateSorted data.Operations := by
  induction h with
  | init => exact List.Pairwise.nil
  | add lib a b c d _ ih => exact addOperationSauvegarder_sorted lib _ a b c d ih
  | delete row label _ ih => exact deleteWorkflow_sorted _ row label ih
  | load json fs name label _ ih => exact loadDataCharger_sorted json fs _ name label ih
  | save lib json fs a b c _ ih => rw [saveDataSauvegarder_operations]; exact ih

/-- The ledger after the three insertions of section 8: dates 10/01/24,
05/01/24 and 20/01/24, entered in that order. -/
theorem reachable_dateSorted_witness :
    ((addOperationSauvegarder goParsers
        (addOperationSauvegarder goParsers
          (addOperationSauvegarder goParsers initialAccountData "10/01/24" "a" "1" "").1
          "05/01/24" "b" "2" "").1
        "20/01/24" "c" "" "3").1.Operations.map (fun o => o.Description) = ["b", "a", "c"]) ∧
    ((addOperationSauvegarder goParsers
        (addOperationSauvegarder goParsers
          (addOperationSauvegarder goParsers initialAccountData "10/01/24" "a" "1" "").1
          "05/01/24" "b" "2" "").1
        "20/01/24" "c" "" "3").1.Operations.map (fun o => o.Date) =
      [goTimeParse "05/01/24", goTimeParse "10/01/24", goTimeParse "20/01/24"].filterMap id) ∧
    DateSorted
      (addOperationSauvegarder goParsers
        (addOperationSauvegarder goParsers
          (addOperationSauvegarder goParsers initialAccountData "10/01/24" "a" "1" "").1
          "05/01/24" "b" "2" "").1
        "20/01/24" "c" "" "3").1.Operations :=
  ⟨by decide!, by decide!,
    reachable_dateSorted _
      (Reachable.add goParsers "20/01/24" "c" "" "3"
        (Reachable.add goParsers "05/01/24" "b" "2" ""
          (Reachable.add goParsers "10/01/24" "a" "1" "" Reachable.init)))⟩

/-! ## C5 and C6: the deletion workflow -/

theorem deleteKeyPressed_valid (data : AccountData) (i : Nat) (hi : i < data.Operations.length) :
    deleteKeyPressed data ((i : Int) + 1) =
      DeleteKeyResult.pending
        { selectedRow := (i : Int) + 1, rowIndexInSlice := (i : Int),
          opToDelete := data.Operations.get ⟨i, hi⟩ } := by
  unfold deleteKeyPressed
  have h0 : ¬ ((i : Int) + 1 = 0) := by omega
  have h1 : ¬ ((i : Int) + 1 - 1 < 0 ∨ (data.Operations.length : Int) ≤ (i : Int) + 1 - 1) := by
    omega
  simp only [h0, h1, if_false, dite_false]
  congr 2
  · omega
  · simp

/-- C5: for every ledger and every index `i` below the number of operations,
the delete key on table row `i + 1` answered with `Oui` leaves
`ops[0..i) ++ ops[i+1..len)`: one entry less, the entries in front of `i`
unchanged, and each later entry moved one place down, in the same order. -/
theorem deleteWorkflow_confirmed (data : AccountData) (i : Nat)
    (hi : i < data.Operations.length) :
    (deleteWorkflow data ((i : Int) + 1) "Oui").Operations =
      data.Operations.take i ++ data.Operations.drop (i + 1) ∧
    (deleteWorkflow data ((i : Int) + 1) "Oui").Operations = data.Operations.eraseIdx i ∧
    (deleteWorkflow data ((i : Int) + 1) "Oui").Operations.length + 1 =
      data.Operations.length ∧
    (∀ j, j < i →
      (deleteWorkflow data ((i : Int) + 1) "Oui").Operations.get? j = data.Operations.get? j) ∧
    (∀ j, i ≤ j →
      (deleteWorkflow data ((i : Int) + 1) "Oui").Operations.get? j =
        data.Operations.get? (j + 1)) ∧
    (deleteWorkflow data ((i : Int) + 1) "Oui").LastSaveDate = data.LastSaveDate := by
  have h : deleteWorkflow data ((i : Int) + 1) "Oui" =
      { data with Operations := deleteAt data.Operations i } := by
    unfold deleteWorkflow
    rw [deleteKeyPressed_valid data i hi]
    simp [confirmDeleteOp]
  rw [h]
  simp only []
  refine ⟨rfl, deleteAt_eq_eraseIdx _ _, ?_, ?_, ?_, trivial⟩
  · rw [deleteAt_eq_eraseIdx, List.length_eraseIdx]
    simp only [hi, if_true]
    omega
  · intro j hj
    rw [deleteAt_eq_eraseIdx, List.get?_eq_getElem?, List.get?_eq_getElem?,
      List.getElem?_eraseIdx]
    simp [hj]
  · intro j hj
    rw [deleteAt_eq_eraseIdx, List.get?_eq_getElem?, List.get?_eq_getElem?,
      List.getElem?_eraseIdx]
    have : ¬ j < i := by omega
    simp [this]

/-- Deleting index 1 of a three-entry ledger leaves the former entries 0 and
2, in that order. -/
theorem deleteWorkflow_confirmed_witness :
    (deleteWorkflow
      { Operations :=
          [{ Date := { unixNano := 1 }, Description := "zero", Debit := Float64.finite 1,
             Credit := Float64.zero },
           { Date := { unixNano := 2 }, Description := "one", Debit := Float64.finite 2,
             Credit := Float64.zero },
           { Date := { unixNano := 3 }, Description := "two", Debit := Float64.zero,
             Credit := Float64.finite 3 }],
        LastSaveDate := "" } ((1 : Nat) + 1 : Int) "Oui").Operations =
      [{ Date := { unixNano := 1 }, Description := "zero", Debit := Float64.finite 1,
         Credit := Float64.zero },
       { Date := { unixNano := 3 }, Description := "two", Debit := Float64.zero,
         Credit := Float64.finite 3 }] :=
  (deleteWorkflow_confirmed
    { Operations :=
        [{ Date := { unixNano := 1 }, Description := "zero", Debit := Float64.finite 1,
           Credit := Float64.zero },
         { Date := { unixNano := 2 }, Description := "one", Debit := Float64.finite 2,
           Credit := Float64.zero },
         { Date := { unixNano := 3 }, Description := "two", Debit := Float64.zero,
           Credit := Float64.finite 3 }],
      LastSaveDate := "" } 1 (by decide)).1

/-- C6: the ledger is changed only by a confirmed deletion of a valid row.
When the selected row is the header row 0, or its slice index `row - 1` lies
outside `[0, len(operations))`, the delete key shows the header or the
invalid-row error modal, opens no confirmation prompt, and the ledger is what
it was; and when the row is valid, the prompt is opened and any answer other
than `Oui` changes nothing and shows nothing. -/
theorem deleteWorkflow_guards (data : AccountData) (selectedRow : Int) (buttonLabel : String) :
    (selectedRow = 0 →
      deleteKeyPressed data selectedRow = DeleteKeyResult.rejected delHeaderErrModal ∧
      deleteWorkflow data selectedRow buttonLabel = data) ∧
    (selectedRow ≠ 0 →
      (selectedRow - 1 < 0 ∨ (data.Operations.length : Int) ≤ selectedRow - 1) →
      deleteKeyPressed data selectedRow = DeleteKeyResult.rejected delInvalidRowErrModal ∧
      deleteWorkflow data selectedRow buttonLabel = data) ∧
    (0 ≤ selectedRow - 1 → selectedRow - 1 < (data.Operations.length : Int) →
      ∃ p, deleteKeyPressed data selectedRow = DeleteKeyResult.pending p ∧
        p.selectedRow = selectedRow ∧ p.rowIndexInSlice = selectedRow - 1 ∧
        data.Operations.get? (selectedRow - 1).toNat = some p.opToDelete ∧
        (buttonLabel ≠ "Oui" → confirmDeleteOp data p buttonLabel = (data, none, none))) ∧
    (buttonLabel ≠ "Oui" → deleteWorkflow data selectedRow buttonLabel = data) := by
  refine ⟨?_, ?_, ?_, ?_⟩
  · intro h0
    have hk : deleteKeyPressed data selectedRow = DeleteKeyResult.rejected delHeaderErrModal := by
      simp [deleteKeyPressed, h0]
    exact ⟨hk, by simp [deleteWorkflow, hk]⟩
  · intro h0 hr
    have hk : deleteKeyPressed data selectedRow =
        DeleteKeyResult.rejected delInvalidRowErrModal := by
      simp only [deleteKeyPressed, h0, if_false, hr, dite_true]
    exact ⟨hk, by simp [deleteWorkflow, hk]⟩
  · intro h1 h2
    have h0 : selectedRow ≠ 0 := by omega
    have hr : ¬ (selectedRow - 1 < 0 ∨ (data.Operations.length : Int) ≤ selectedRow - 1) := by
      omega
    refine ⟨{ selectedRow := selectedRow, rowIndexInSlice := selectedRow - 1,
              opToDelete := data.Operations.get ⟨(selectedRow - 1).toNat, by omega⟩ },
      ?_, rfl, rfl, ?_, ?_⟩
    · simp only [deleteKeyPressed, h0, if_false, hr, dite_false]
    · simp [List.get?_eq_getElem?]
    · intro hl
      simp [confirmDeleteOp, hl]
  · intro hl
    unfold deleteWorkflow
    split
    · rfl
    · simp [confirmDeleteOp, hl]

/-- C6 on a one-entry ledger: the header row, a row below the last entry and
a negative row are refused, and the valid row 1 answered `Non` leaves the
ledger as it was. -/
theorem deleteWorkflow_guards_witness :
    (deleteKeyPressed sampleLedger 0 = DeleteKeyResult.rejected delHeaderErrModal ∧
      deleteWorkflow sampleLedger 0 "Oui" = sampleLedger) ∧
    (deleteKeyPressed sampleLedger 2 = DeleteKeyResult.rejected delInvalidRowErrModal ∧
      deleteWorkflow sampleLedger 2 "Oui" = sampleLedger) ∧
    deleteWorkflow sampleLedger 1 "Non" = sampleLedger :=
  ⟨(deleteWorkflow_guards sampleLedger 0 "Oui").1 rfl,
    (deleteWorkflow_guards sampleLedger 2 "Oui").2.1 (by decide) (by decide),
    (deleteWorkflow_guards sampleLedger 1 "Non").2.2.2 (by decide)⟩

/-! ## C7: the balance column -/

theorem Float64.toRat_finite (q : ℚ) : (Float64.finite q).toRat = q := rfl

theorem populateRows_length (b : Float64) (ops : List Operation) :
    (populateRows b ops).length = ops.length := by
  induction ops generalizing b with
  | nil => rfl
  | cons op rest ih => simp [populateRows, ih]

theorem populateRows_balance_zero (b : Float64) (ops : List Operation) (op : Operation)
    (hop : ops.get? 0 = some op) :
    ((populateRows b ops).get? 0).map TableRow.balance =
      some (Float64.add b (Float64.sub op.Credit op.Debit)) := by
  cases ops with
  | nil => simp at hop
  | cons a rest =>
    simp at hop
    subst hop
    simp [populateRows]

theorem populateRows_balance_succ (b : Float64) (ops : List Operation) (i : Nat)
    (op : Operation) (prev : Float64) (hop : ops.get? (i + 1) = some op)
    (hprev : ((populateRows b ops).get? i).map TableRow.balance = some prev) :
    ((populateRows b ops).get? (i + 1)).map TableRow.balance =
      some (Float64.add prev (Float64.sub op.Credit op.Debit)) := by
  induction ops generalizing b i with
  | nil => simp at hop
  | cons a rest ih =>
    simp only [List.get?_cons_succ] at hop
    simp only [populateRows, List.get?_cons_succ]
    cases i with
    | zero =>
      simp only [populateRows, List.get?_cons_zero, Option.map_some', Option.some.injEq] at hprev
      rw [← hprev]
      exact populateRows_balance_zero _ rest op hop
    | succ j =>
      simp only [populateRows, List.get?_cons_succ] at hprev
      exact ih _ j hop hprev

theorem populateRows_balance_exact (ops : List Operation)
    (hfin : ∀ op ∈ ops, op.Debit.isFinite = true ∧ op.Credit.isFinite = true)
    (hnet : ∀ op ∈ ops, Float64.representable (op.Credit.toRat - op.Debit.toRat)) (b0 : ℚ)
    (hsum : ∀ i, i < ops.length →
      Float64.representable
        (b0 + ((ops.take (i + 1)).map (fun o => o.Credit.toRat - o.Debit.toRat)).sum))
    (i : Nat) (hi : i < ops.length) :
    ((populateRows (Float64.finite b0) ops).get? i).map TableRow.balance =
      some (Float64.finite
        (b0 + ((ops.take (i + 1)).map (fun o => o.Credit.toRat - o.Debit.toRat)).sum)) := by
  induction ops generalizing b0 i with
  | nil => simp at hi
  | cons op rest ih =>
    have hop := hfin op (List.mem_cons_self _ _)
    have hnop := hnet op (List.mem_cons_self _ _)
    have hs0 := hsum 0 (by simp)
    have hrest : ∀ o ∈ rest, o.Debit.isFinite = true ∧ o.Credit.isFinite = true :=
      fun o ho => hfin o (List.mem_cons_of_mem _ ho)
    have hnrest : ∀ o ∈ rest, Float64.representable (o.Credit.toRat - o.Debit.toRat) :=
      fun o ho => hnet o (List.mem_cons_of_mem _ ho)
    obtain ⟨date, desc, debit, credit⟩ := op
    cases debit <;> cases credit <;> simp [Float64.isFinite] at hop
    rename_i d c
    simp only [Float64.toRat_finite] at hnop
    simp only [List.take_succ_cons, List.take_zero, List.map_cons, List.map_nil, List.sum_cons,
      List.sum_nil, Float64.toRat_finite, add_zero] at hs0
    have hstep : Float64.add (Float64.finite b0)
        (Float64.sub (Float64.finite c) (Float64.finite d)) = Float64.finite (b0 + (c - d)) := by
      have h1 : Float64.sub (Float64.finite c) (Float64.finite d) = Float64.finite (c - d) := by
        simp only [Float64.sub, Float64.neg, Float64.add]
        rw [← sub_eq_add_neg]
        exact hnop
      rw [h1]
      simp only [Float64.add]
      exact hs0
    cases i with
    | zero =>
      simp only [populateRows, List.get?_cons_zero, Option.map_some', hstep, List.take_succ_cons,
        List.take_zero, List.map_cons, List.map_nil, List.sum_cons, List.sum_nil,
        Float64.toRat_finite, add_zero]
    | succ j =>
      have hj : j < rest.length := by simpa using hi
      have hsum' : ∀ k, k < rest.length →
          Float64.representable
            (b0 + (c - d) +
              ((rest.take (k + 1)).map (fun o => o.Credit.toRat - o.Debit.toRat)).sum) := by
        intro k hk
        have := hsum (k + 1) (by simpa using hk)
        simp only [List.take_succ_cons, List.map_cons, List.sum_cons, Float64.toRat_finite]
          at this
        rw [add_assoc]
        exact this
      have := ih hrest hnrest (b0 + (c - d)) hsum' j hj
      simp only [populateRows, List.get?_cons_succ, hstep, List.take_succ_cons, List.map_cons,
        List.sum_cons, Float64.toRat_finite]
      rw [this, add_assoc]

/-- C7 as stated fails on the ledger of three operations entered in the form
as a credit of 10000000000000000, a credit of 1 and a debit of
10000000000000000: all amounts are finite numbers, the sums of
`credit - debit` up to each row are 10000000000000000, 10000000000000001 and
1, and the balance column shows 10000000000000000, 10000000000000000 and 0,
because the `float64` addition of line 403 rounds. -/
theorem populateTableData_balance_rounds :
    roundingExample.Operations.map (fun o => (o.Debit, o.Credit)) =
      [(Float64.finite 0, Float64.finite 10000000000000000),
       (Float64.finite 0, Float64.finite 1),
       (Float64.finite 10000000000000000, Float64.finite 0)] ∧
    (List.range 3).map (fun i =>
      ((roundingExample.Operations.take (i + 1)).map
        (fun o => o.Credit.toRat - o.Debit.toRat)).sum) =
      [10000000000000000, 10000000000000001, 1] ∧
    (populateTableData roundingExample).map TableRow.balance =
      [Float64.finite 10000000000000000, Float64.finite 10000000000000000,
       Float64.finite 0] ∧
    (populateTableData roundingExample).map TableRow.balance ≠
      (List.range 3).map (fun i =>
        Float64.finite
          (((roundingExample.Operations.take (i + 1)).map
            (fun o => o.Credit.toRat - o.Debit.toRat)).sum)) := by
  refine ⟨by decide!, by decide!, by decide!, by decide!⟩

/-- C7, amended: the balance column has one value per operation; the first
value is `0 + (credit - debit)` of the first operation and each later value
is the value before it plus `credit - debit` of its own operation, the
subtraction and the addition being those of `float64`, which round; and when
the amounts are numbers and every difference `credit - debit` and every sum
of them up to a row is a number `float64` holds exactly, the value of row `i`
is that exact sum over `k ≤ i`. -/
theorem populateTableData_balance (data : AccountData) :
    (populateTableData data).length = data.Operations.length ∧
    (∀ op, data.Operations.get? 0 = some op →
      ((populateTableData data).get? 0).map TableRow.balance =
        some (Float64.add Float64.zero (Float64.sub op.Credit op.Debit))) ∧
    (∀ i op prev, data.Operations.get? (i + 1) = some op →
      ((populateTableData data).get? i).map TableRow.balance = some prev →
      ((populateTableData data).get? (i + 1)).map TableRow.balance =
        some (Float64.add prev (Float64.sub op.Credit op.Debit))) ∧
    ((∀ op ∈ data.Operations, op.Debit.isFinite = true ∧ op.Credit.isFinite = true) →
      (∀ op ∈ data.Operations, Float64.representable (op.Credit.toRat - op.Debit.toRat)) →
      (∀ i, i < data.Operations.length →
        Float64.representable
          (((data.Operations.take (i + 1)).map
            (fun o => o.Credit.toRat - o.Debit.toRat)).sum)) →
      ∀ i, i < data.Operations.length →
        ((populateTableData data).get? i).map TableRow.balance =
          some (Float64.finite
            (((data.Operations.take (i + 1)).map
              (fun o => o.Credit.toRat - o.Debit.toRat)).sum))) := by
  refine ⟨populateRows_length _ _, ?_, ?_, ?_⟩
  · intro op hop
    exact populateRows_balance_zero _ _ op hop
  · intro i op prev hop hprev
    exact populateRows_balance_succ _ _ i op prev hop hprev
  · intro hfin hnet hsum i hi
    have := populateRows_balance_exact data.Operations hfin hnet 0
      (by intro k hk; simpa using hsum k hk) i hi
    simpa [populateTableData, Float64.zero] using this

/-- The example of section 8: the amounts (0,100), (50,0), (0,25) give the
balances 100, 50, 75, one per operation, each the exact sum up to its row,
no subtraction or addition having to round. -/
theorem populateTableData_balance_witness :
    (populateTableData balanceExample).map TableRow.balance =
      [Float64.finite 100, Float64.finite 50, Float64.finite 75] ∧
    (populateTableData balanceExample).length = balanceExample.Operations.length ∧
    ((populateTableData balanceExample).get? 2).map TableRow.balance =
      some (Float64.finite
        (((balanceExample.Operations.take (2 + 1)).map
          (fun o => o.Credit.toRat - o.Debit.toRat)).sum)) :=
  ⟨by decide!,
    (populateTableData_balance balanceExample).1,
    (populateTableData_balance balanceExample).2.2.2 (by decide!) (by decide!) (by decide!) 2
      (by decide)⟩

/-! ## C8: saving then loading -/

/-- C8 as stated fails at a path that accepts the write and does not keep it:
saving the sample ledger to `/dev/null` succeeds, and loading `/dev/null`
afterwards returns an error and not the sample ledger. -/
theorem saveData_loadData_dev_null :
    (saveData sampleCodec deviceFileSystem sampleLedger "/dev/null").2 = none ∧
    (loadData sampleCodec
      (saveData sampleCodec deviceFileSystem sampleLedger "/dev/null").1 "/dev/null").2 ≠ none ∧
    (loadData sampleCodec
      (saveData sampleCodec deviceFileSystem sampleLedger "/dev/null").1 "/dev/null").1 ≠
      sampleLedger := by
  refine ⟨by decide, by decide, by decide⟩

/-- C8, amended: for every ledger, files and path, when `saveData` returns no
error and the path keeps what is written to it, the path holds exactly the
text `json.MarshalIndent` printed for the ledger, every other path reads as
before, and `loadData` on that path returns what `json.Unmarshal` makes of
that text, its error wrapped; so `loadData` returns the saved ledger, equal
in every field and without error, exactly when `json.Unmarshal` reads the
printed text back as that ledger. -/
theorem saveData_loadData_relay (json : JsonCodec) (fs : FileSystem) (data : AccountData)
    (filePath : String) (hsave : (saveData json fs data filePath).2 = none)
    (hkeep : fs.keepsWrites filePath = true) :
    ∃ jsonData, json.marshalIndent data = Except.ok jsonData ∧
      (saveData json fs data filePath).1.content filePath = Except.ok jsonData ∧
      (∀ p, p ≠ filePath → (saveData json fs data filePath).1.content p = fs.content p) ∧
      loadData json (saveData json fs data filePath).1 filePath =
        (match json.unmarshal jsonData with
         | (d, some err) => (d, some (fmtErrorfW "error unmarshaling data: " err))
         | (d, none) => (d, none)) ∧
      (loadData json (saveData json fs data filePath).1 filePath = (data, none) ↔
        json.unmarshal jsonData = (data, none)) := by
  unfold saveData at hsave ⊢
  cases hm : json.marshalIndent data with
  | error err => simp [hm] at hsave
  | ok jsonData =>
    simp only [hm] at hsave ⊢
    unfold osWriteFile at hsave ⊢
    cases hw : fs.writeError filePath with
    | some code => simp [hw] at hsave
    | none =>
      simp only [hw, hkeep, if_true]
      refine ⟨jsonData, rfl, by simp, ?_, ?_, ?_⟩
      · intro p hp
        simp [hp]
      · simp [loadData, osReadFile]
      · simp only [loadData, osReadFile, if_true]
        cases hu : json.unmarshal jsonData with
        | mk d e =>
          cases e with
          | none => simp
          | some e1 => simp

/-- The amended C8 on the sample codec: the empty ledger and the sample
ledger, saved into a directory that holds no file, are loaded back as they
were. -/
theorem saveData_loadData_relay_witness :
    loadData sampleCodec (saveData sampleCodec emptyFileSystem initialAccountData "vide.json").1
      "vide.json" = (initialAccountData, none) ∧
    loadData sampleCodec (saveData sampleCodec emptyFileSystem sampleLedger "comptes.json").1
      "comptes.json" = (sampleLedger, none) :=
  ⟨by
      obtain ⟨jsonData, hm, _, _, _, hiff⟩ :=
        saveData_loadData_relay sampleCodec emptyFileSystem initialAccountData "vide.json"
          (by decide) rfl
      have hm0 : sampleCodec.marshalIndent initialAccountData = Except.ok emptyLedgerJson := by
        decide
      rw [hm0] at hm
      cases hm
      exact hiff.mpr (by decide),
    by
      obtain ⟨jsonData, hm, _, _, _, hiff⟩ :=
        saveData_loadData_relay sampleCodec emptyFileSystem sampleLedger "comptes.json"
          (by decide) rfl
      have hm0 : sampleCodec.marshalIndent sampleLedger = Except.ok sampleLedgerJson := by
        decide
      rw [hm0] at hm
      cases hm
      exact hiff.mpr (by decide)⟩

/-! ## C9 and C10: the load handler -/

theorem osIsNotExist_fmtErrorfW (text : String) (err : GoError) :
    osIsNotExist (fmtErrorfW text err) = false := rfl

/-- Every error `loadData` returns was built by `fmt.Errorf`, and
`os.IsNotExist` does not look inside such an error. -/
theorem loadData_error_not_isNotExist (json : JsonCodec) (fs : FileSystem) (filePath : String)
    (err : GoError) (h : (loadData json fs filePath).2 = some err) : osIsNotExist err = false := by
  unfold loadData at h
  cases hr : osReadFile fs filePath with
  | error e =>
    simp [hr] at h
    subst h
    rfl
  | ok fileData =>
    simp only [hr] at h
    cases hu : json.unmarshal fileData with
    | mk d e =>
      cases e with
      | none => simp [hu] at h
      | some e1 =>
        simp [hu] at h
        subst h
        rfl

theorem confirmLoadFileDone_error (json : JsonCodec) (fs : FileSystem) (current : AccountData)
    (fileName : String) (err : GoError) (h : (loadData json fs fileName).2 = some err) :
    confirmLoadFileDone json fs current fileName "Oui" =
      (current, some (loadFileErr (genericLoadMessage err))) := by
  have hne := loadData_error_not_isNotExist json fs fileName err h
  unfold confirmLoadFileDone
  cases hl : loadData json fs fileName with
  | mk d e =>
    rw [hl] at h
    simp at h
    subst h
    simp [hne]

theorem confirmLoadFileDone_ok (json : JsonCodec) (fs : FileSystem) (current : AccountData)
    (fileName : String) (h : (loadData json fs fileName).2 = none) :
    confirmLoadFileDone json fs current fileName "Oui" =
      ({ Operations := sortOperations (loadData json fs fileName).1.Operations,
         LastSaveDate := (loadData json fs fileName).1.LastSaveDate },
        some (loadFileSuccess fileName)) := by
  unfold confirmLoadFileDone
  cases hl : loadData json fs fileName with
  | mk d e =>
    rw [hl] at h
    simp at h
    subst h
    simp

theorem confirmLoadFileDone_declined (json : JsonCodec) (fs : FileSystem)
    (current : AccountData) (fileName buttonLabel : String) (h : buttonLabel ≠ "Oui") :
    confirmLoadFileDone json fs current fileName buttonLabel = (current, none) := by
  simp [confirmLoadFileDone, h]

/-- C9: whatever the current ledger, the files and the file name are, when
`loadData` returns an error the ledger after the "Charger" handler is the one
before it, operations and last-save date alike; the ledger differs from the
one before only if a file name was given, the prompt was answered `Oui` and
`loadData` returned no error; and then nothing of the previous ledger is
kept: the last-save date is the loaded one and the operations are the loaded
operations, put in date order by line 213 (the loaded ledger itself when its
operations are in date order). -/
theorem loadDataCharger_atomic (json : JsonCodec) (fs : FileSystem) (current : AccountData)
    (fileNameText buttonLabel : String) :
    ((loadData json fs (TrimSpace fileNameText)).2 ≠ none →
      (loadDataCharger json fs current fileNameText buttonLabel).1 = current) ∧
    ((loadDataCharger json fs current fileNameText buttonLabel).1 ≠ current →
      TrimSpace fileNameText ≠ "" ∧ buttonLabel = "Oui" ∧
      (loadData json fs (TrimSpace fileNameText)).2 = none) ∧
    (TrimSpace fileNameText ≠ "" → buttonLabel = "Oui" →
      (loadData json fs (TrimSpace fileNameText)).2 = none →
      (loadDataCharger json fs current fileNameText buttonLabel).1 =
        { Operations := sortOperations (loadData json fs (TrimSpace fileNameText)).1.Operations,
          LastSaveDate := (loadData json fs (TrimSpace fileNameText)).1.LastSaveDate } ∧
      (loadDataCharger json fs current fileNameText buttonLabel).1.Operations.Perm
        (loadData json fs (TrimSpace fileNameText)).1.Operations ∧
      (DateSorted (loadData json fs (TrimSpace fileNameText)).1.Operations →
        (loadDataCharger json fs current fileNameText buttonLabel).1 =
          (loadData json fs (TrimSpace fileNameText)).1)) := by
  have hfail : (loadData json fs (TrimSpace fileNameText)).2 ≠ none →
      (loadDataCharger json fs current fileNameText buttonLabel).1 = current := by
    intro herr
    unfold loadDataCharger
    simp only []
    split
    · rfl
    · by_cases hl : buttonLabel = "Oui"
      · subst hl
        cases he : (loadData json fs (TrimSpace fileNameText)).2 with
        | none => exact absurd he herr
        | some err => rw [confirmLoadFileDone_error json fs current _ err he]
      · rw [confirmLoadFileDone_declined json fs current _ _ hl]
  have hok : TrimSpace fileNameText ≠ "" → buttonLabel = "Oui" →
      (loadData json fs (TrimSpace fileNameText)).2 = none →
      (loadDataCharger json fs current fileNameText buttonLabel).1 =
        { Operations := sortOperations (loadData json fs (TrimSpace fileNameText)).1.Operations,
          LastSaveDate := (loadData json fs (TrimSpace fileNameText)).1.LastSaveDate } := by
    intro hname hl hnone
    subst hl
    unfold loadDataCharger
    simp only [hname, if_false]
    rw [confirmLoadFileDone_ok json fs current _ hnone]
  refine ⟨hfail, ?_, ?_⟩
  · intro hchg
    refine ⟨?_, ?_, ?_⟩
    · intro hempty
      apply hchg
      simp [loadDataCharger, hempty]
    · by_contra hl
      apply hchg
      unfold loadDataCharger
      simp only []
      split
      · rfl
      · rw [confirmLoadFileDone_declined json fs current _ _ hl]
    · by_contra herr
      exact hchg (hfail herr)
  · intro hname hl hnone
    have h := hok hname hl hnone
    refine ⟨h, ?_, ?_⟩
    · rw [h]
      exact sortOperations_perm _
    · intro hs
      rw [h, sortOperations_of_sorted _ hs]

/-- C9 on concrete files: loading a missing file into the sample ledger
leaves the sample ledger, and loading the file in which the sample ledger was
saved replaces the empty ledger by the sample ledger. -/
theorem loadDataCharger_atomic_witness :
    (loadDataCharger sampleCodec emptyFileSystem sampleLedger "absent.json" "Oui").1 =
      sampleLedger ∧
    (loadDataCharger sampleCodec
      (saveData sampleCodec emptyFileSystem sampleLedger "comptes.json").1 initialAccountData
      "comptes.json" "Oui").1 = sampleLedger :=
  ⟨(loadDataCharger_atomic sampleCodec emptyFileSystem sampleLedger "absent.json" "Oui").1
      (by decide),
    by
      have h := (loadDataCharger_atomic sampleCodec
        (saveData sampleCodec emptyFileSystem sampleLedger "comptes.json").1 initialAccountData
        "comptes.json" "Oui").2.2 (by decide) rfl (by decide)
      have hl : (loadData sampleCodec
          (saveData sampleCodec emptyFileSystem sampleLedger "comptes.json").1
          (TrimSpace "comptes.json")).1 = sampleLedger := by decide
      rw [hl] at h
      exact h.2.2 (by decide)⟩

/-- C10, at a file that does not exist: `loadData` returns the `PathError` of
`os.ReadFile` wrapped by `fmt.Errorf`; `os.IsNotExist` recognises the
`PathError` but not the wrapped error, and the handler shows the generic
message instead of the message for a file that is not found. -/
theorem confirmLoadFileDone_missing_file :
    loadData sampleCodec emptyFileSystem "absent.json" =
      ({ Operations := [], LastSaveDate := "" },
        some (GoError.wrapError
          "error reading file: open absent.json: no such file or directory"
          (GoError.pathError "open" "absent.json" (GoError.errno ENOENT)))) ∧
    osIsNotExist (GoError.pathError "open" "absent.json" (GoError.errno ENOENT)) = true ∧
    osIsNotExist (GoError.wrapError
      "error reading file: open absent.json: no such file or directory"
      (GoError.pathError "open" "absent.json" (GoError.errno ENOENT))) = false ∧
    confirmLoadFileDone sampleCodec emptyFileSystem sampleLedger "absent.json" "Oui" =
      (sampleLedger,
        some (loadFileErr ("Erreur lors du chargement du fichier: " ++
          "error reading file: open absent.json: no such file or directory"))) ∧
    confirmLoadFileDone sampleCodec emptyFileSystem sampleLedger "absent.json" "Oui" ≠
      (sampleLedger, some (loadFileErr (notFoundMessage "absent.json"))) := by
  refine ⟨by decide, by decide, by decide, by decide, by decide⟩

/-! ## C11: the row selected after a deletion -/

theorem deleteAt_length (ops : List Operation) (i : Nat) (hi : i < ops.length) :
    (deleteAt ops i).length = ops.length - 1 := by
  rw [deleteAt_eq_eraseIdx, List.length_eraseIdx]
  simp [hi]

theorem deleteWorkflow_valid (data : AccountData) (i : Nat) (hi : i < data.Operations.length) :
    deleteWorkflow data ((i : Int) + 1) "Oui" =
      { data with Operations := deleteAt data.Operations i } := by
  unfold deleteWorkflow
  rw [deleteKeyPressed_valid data i hi]
  simp [confirmDeleteOp]

theorem deleteWorkflowSelection_valid (data : AccountData) (i : Nat)
    (hi : i < data.Operations.length) :
    deleteWorkflowSelection data ((i : Int) + 1) "Oui" =
      some (selectionAfterDelete ((i : Int) + 1) (data.Operations.length - 1)) := by
  unfold deleteWorkflowSelection
  rw [deleteKeyPressed_valid data i hi]
  simp [confirmDeleteOp, deleteAt_length _ _ hi]

/-- C11: for a ledger of `n` operations and a table row `r` with
`1 ≤ r ≤ n`, the delete key on row `r` answered `Oui` leaves `n - 1`
operations and selects row 0 when `n = 1`, row `n - 1` when the last entry
was deleted (`r = n > 1`), and row `r` otherwise; so whenever entries remain
the selected row is a data row between 1 and `n - 1`. The selected row then
shows the entry that followed the deleted one when `r < n`, and the new last
entry when `r = n > 1`. -/
theorem deleteWorkflowSelection_confirmed (data : AccountData) (r : Int) (h1 : 1 ≤ r)
    (h2 : r ≤ (data.Operations.length : Int)) :
    (deleteWorkflow data r "Oui").Operations.length + 1 = data.Operations.length ∧
    (data.Operations.length = 1 → deleteWorkflowSelection data r "Oui" = some 0) ∧
    (1 < data.Operations.length → r = (data.Operations.length : Int) →
      deleteWorkflowSelection data r "Oui" = some ((data.Operations.length : Int) - 1)) ∧
    (r < (data.Operations.length : Int) → deleteWorkflowSelection data r "Oui" = some r) ∧
    (1 < data.Operations.length →
      ∃ sel : Int, deleteWorkflowSelection data r "Oui" = some sel ∧ 1 ≤ sel ∧
        sel ≤ (data.Operations.length : Int) - 1) ∧
    (r < (data.Operations.length : Int) →
      (deleteWorkflow data r "Oui").Operations.get? (r - 1).toNat =
        data.Operations.get? r.toNat) ∧
    (1 < data.Operations.length → r = (data.Operations.length : Int) →
      (deleteWorkflow data r "Oui").Operations.get? (data.Operations.length - 2) =
        data.Operations.get? (data.Operations.length - 2) ∧
      (deleteWorkflow data r "Oui").Operations.getLast? =
        data.Operations.get? (data.Operations.length - 2)) := by
  obtain ⟨i, rfl⟩ : ∃ i : Nat, r = (i : Int) + 1 := ⟨(r - 1).toNat, by omega⟩
  have hi : i < data.Operations.length := by omega
  have hsel := deleteWorkflowSelection_valid data i hi
  have hwf := deleteWorkflow_valid data i hi
  have hlen := deleteAt_length data.Operations i hi
  rw [hsel, hwf]
  simp only []
  refine ⟨by rw [hlen]; omega, ?_, ?_, ?_, ?_, ?_, ?_⟩
  · intro hn
    simp [selectionAfterDelete, hn]
  · intro hn hr
    have h0 : ¬ (data.Operations.length - 1 = 0) := by omega
    have hgt : ((i : Int) + 1 > ((data.Operations.length - 1 : Nat) : Int)) := by omega
    simp only [selectionAfterDelete, h0, if_false, hgt, if_true]
    congr 1
    omega
  · intro hr
    have h0 : ¬ (data.Operations.length - 1 = 0) := by omega
    have hgt : ¬ ((i : Int) + 1 > ((data.Operations.length - 1 : Nat) : Int)) := by omega
    simp only [selectionAfterDelete, h0, if_false, hgt]
  · intro hn
    have h0 : ¬ (data.Operations.length - 1 = 0) := by omega
    refine ⟨_, rfl, ?_, ?_⟩
    · simp only [selectionAfterDelete, h0, if_false]
      split <;> omega
    · simp only [selectionAfterDelete, h0, if_false]
      split <;> omega
  · intro hr
    have e1 : ((i : Int) + 1 - 1).toNat = i := by omega
    have e2 : ((i : Int) + 1).toNat = i + 1 := by omega
    rw [e1, e2, deleteAt_eq_eraseIdx, List.get?_eq_getElem?, List.get?_eq_getElem?,
      List.getElem?_eraseIdx]
    simp
  · intro hn hr
    have hlt : data.Operations.length - 2 < i := by omega
    have hget : (deleteAt data.Operations i).get? (data.Operations.length - 2) =
        data.Operations.get? (data.Operations.length - 2) := by
      rw [deleteAt_eq_eraseIdx, List.get?_eq_getElem?, List.get?_eq_getElem?,
        List.getElem?_eraseIdx]
      simp [hlt]
    refine ⟨hget, ?_⟩
    rw [← hget, List.getLast?_eq_getElem?, hlen, List.get?_eq_getElem?]
    congr 1

/-- C11 on ledgers of one and of three operations: deleting the only entry
selects row 0, deleting the last of three selects row 2, and deleting the
first of three keeps row 1 selected. -/
theorem deleteWorkflowSelection_confirmed_witness :
    deleteWorkflowSelection sampleLedger 1 "Oui" = some 0 ∧
    deleteWorkflowSelection balanceExample 3 "Oui" = some 2 ∧
    deleteWorkflowSelection balanceExample 1 "Oui" = some 1 :=
  ⟨(deleteWorkflowSelection_confirmed sampleLedger 1 (by decide) (by decide)).2.1 rfl,
    (deleteWorkflowSelection_confirmed balanceExample 3 (by decide) (by decide)).2.2.1
      (by decide) rfl,
    (deleteWorkflowSelection_confirmed balanceExample 1 (by decide) (by decide)).2.2.2.1
      (by decide)⟩

end JulesExp
